import Mathlib

/-! Block breaker: the simulation core of `script.js`.

A shallow embedding of the game's update step, its reset operations and its
key handlers, followed by the properties proved about them.

Numbers are the elements of an arbitrary linear ordered field `α`
(instantiated with `ℚ` when a definition is evaluated, with `ℝ` where
trigonometry is needed); `lives` and `score` are integers.  The fields of
`paddle`, `ball` and `bricks` that no statement of the program ever assigns
(`paddle.w`, `paddle.h`, `paddle.y`, `paddle.speed`, `ball.r`, `ball.speed`,
`bricks.rows`, ...) are constants; the fields that are assigned make up the
`World`.  The canvas is outside the script and is a parameter.

Reading `bricks.grid[r][c].alive` throws a `TypeError` when the grid has no
such cell; the functions that read the grid return `Option`, `none` being the
throw.

The arithmetic of these definitions is exact.  The script computes in IEEE
doubles; `roundDouble` models their rounding and `circleRectCollisionF` is the
collision test with every operation rounded, for the one property that
depends on it.
-/

namespace BlockBreaker

/-! ## Data model -/

/-- The canvas element: only its size is read. -/
structure Canvas (α : Type) where
  width : α
  height : α
deriving DecidableEq, Repr

/-- The mutable fields of `state`. -/
structure GameState where
  score : Int
  lives : Int
  paused : Bool
  started : Bool
  gameOver : Bool
deriving DecidableEq, Repr

/-- The mutable fields of `paddle`. -/
structure Paddle (α : Type) where
  x : α
  dx : α
deriving DecidableEq, Repr

/-- The mutable fields of `ball`. -/
structure Ball (α : Type) where
  x : α
  y : α
  vx : α
  vy : α
deriving DecidableEq, Repr

/-- One cell of `bricks.grid`. -/
structure Brick where
  alive : Bool
deriving DecidableEq, Repr

/-- Everything the script mutates: `state`, `paddle`, `ball`, `bricks.grid`
and the set `keys` of held keys (a list without duplicates, in insertion
order). -/
structure World (α : Type) where
  state : GameState
  paddle : Paddle α
  ball : Ball α
  grid : List (List Brick)
  keys : List String
deriving DecidableEq, Repr

/-- What the script takes from `Math`: `Math.cos`, `Math.sin`, `Math.PI`. -/
structure MathEnv (α : Type) where
  cos : α → α
  sin : α → α
  PI : α

section Defs

variable {α : Type} [LinearOrderedField α]

/-! ## Constants of the script -/

/-- The constant `paddle.w` -/
def Paddle.w (_p : Paddle α) : α := 110
/-- The constant `paddle.h` -/
def Paddle.h (_p : Paddle α) : α := 14
/-- The constant `paddle.y`, set once to `canvas.height - 30`. -/
def Paddle.y (_p : Paddle α) (canvas : Canvas α) : α := canvas.height - 30
/-- The constant `paddle.speed` -/
def Paddle.speed (_p : Paddle α) : α := 7
/-- The constant `ball.r` -/
def Ball.r (_b : Ball α) : α := 7
/-- The constant `ball.speed` -/
def Ball.speed (_b : Ball α) : α := 5

/-- The constant `bricks.rows` -/
def bricks.rows : Nat := 7
/-- The constant `bricks.cols` -/
def bricks.cols : Nat := 8
/-- The constant `bricks.w` -/
def bricks.w : α := 48
/-- The constant `bricks.h` -/
def bricks.h : α := 18
/-- The constant `bricks.pad` -/
def bricks.pad : α := 10
/-- The constant `bricks.top` -/
def bricks.top : α := 70
/-- The constant `bricks.left` -/
def bricks.left : α := 22

/-! ## Helpers -/

/-- The function `clamp(v, min, max) = Math.max(min, Math.min(max, v))` -/
def clamp (v lo hi : α) : α := max lo (min hi v)

/-- The function `circleRectCollision(cx, cy, r, rx, ry, rw, rh)`, in exact
arithmetic; `circleRectCollisionF` is the same test with the rounding of
doubles. -/
def circleRectCollision (cx cy r rx ry rw rh : α) : Bool :=
  let closestX := clamp cx rx (rx + rw)
  let closestY := clamp cy ry (ry + rh)
  let dx := cx - closestX
  let dy := cy - closestY
  decide (dx * dx + dy * dy ≤ r * r)

/-- The number of binary digits of `n`, computed by halving; `fuel` bounds the
number of halvings and `n` itself is enough. -/
def bitLength : Nat → Nat → Nat
  | 0, _ => 0
  | fuel + 1, n => if n = 0 then 0 else bitLength fuel (n / 2) + 1

/-- The floor of the binary logarithm of `|x|`, for `x ≠ 0`: the difference of
the bit lengths of numerator and denominator, or one less. -/
def ilog2 (x : ℚ) : Int :=
  let e0 : Int := (bitLength x.num.natAbs x.num.natAbs : Int) - (bitLength x.den x.den : Int)
  if (2 : ℚ) ^ e0 ≤ |x| then e0 else e0 - 1

/-- The integer nearest to `y`, the even one of the two when `y` is halfway. -/
def roundEven (y : ℚ) : Int :=
  let f := ⌊y⌋
  let r := y - f
  if r < 1 / 2 then f else if 1 / 2 < r then f + 1 else if f % 2 = 0 then f else f + 1

/-- The IEEE double nearest to `x`, ties to the even significand: 53
significant bits, and steps of `2 ^ (-1074)` below `2 ^ (-1022)`.  Overflow to
infinity (from `2 ^ 1024` on) is not modelled. -/
def roundDouble (x : ℚ) : ℚ :=
  if x = 0 then 0
  else
    let ulp : ℚ := 2 ^ max (ilog2 x - 52) (-1074)
    roundEven (x / ulp) * ulp

/-- The function `circleRectCollision` as the script computes it on doubles:
every sum, difference and product is rounded; `Math.max` and `Math.min` and
the comparison are exact. -/
def circleRectCollisionF (cx cy r rx ry rw rh : ℚ) : Bool :=
  let closestX := clamp cx rx (roundDouble (rx + rw))
  let closestY := clamp cy ry (roundDouble (ry + rh))
  let dx := roundDouble (cx - closestX)
  let dy := roundDouble (cy - closestY)
  decide (roundDouble (roundDouble (dx * dx) + roundDouble (dy * dy)) ≤ roundDouble (r * r))

/-- The cell `bricks.grid[r][c]`; `none` when the grid has no such cell. -/
def brickAt (grid : List (List Brick)) (r c : Nat) : Option Brick :=
  match grid[r]? with
  | none => none
  | some row => row[c]?

/-- The call `keys.has(k)`. -/
def keysHas (keys : List String) (k : String) : Bool := keys.contains k

/-- The call `keys.add(k)`. -/
def keysAdd (keys : List String) (k : String) : List String :=
  if keys.contains k then keys else keys ++ [k]

/-- The call `keys.delete(k)`. -/
def keysDelete (keys : List String) (k : String) : List String :=
  keys.filter (fun x => x != k)

/-! ## Reset operations -/

/-- The function `resetBricks()`: a fresh grid of `rows` rows of `cols` alive bricks. -/
def resetBricks : List (List Brick) :=
  (List.range bricks.rows).map fun _ =>
    (List.range bricks.cols).map fun _ => { alive := true }

/-- The function `resetBallOnPaddle()` -/
def resetBallOnPaddle (canvas : Canvas α) (s : World α) : World α :=
  { s with
    ball :=
      { x := s.paddle.x + s.paddle.w / 2
        y := s.paddle.y canvas - s.ball.r - 1
        vx := 0
        vy := 0 }
    state := { s.state with started := false } }

/-- The function `fullReset()` -/
def fullReset (canvas : Canvas α) (s : World α) : World α :=
  let s : World α :=
    { s with
      state := { score := 0, lives := 3, paused := false, started := false, gameOver := false }
      paddle := { x := (canvas.width - s.paddle.w) / 2, dx := 0 } }
  let s : World α := { s with grid := resetBricks }
  resetBallOnPaddle canvas s

/-- The state after the script has been loaded: the object literals, then
`resetBricks(); resetBallOnPaddle();` and an empty key set. -/
def initial (canvas : Canvas α) : World α :=
  let s : World α :=
    { state := { score := 0, lives := 3, paused := false, started := false, gameOver := false }
      paddle := { x := (canvas.width - 110) / 2, dx := 0 }
      ball := { x := canvas.width / 2, y := (canvas.height - 30) - 7 - 1, vx := 0, vy := 0 }
      grid := []
      keys := [] }
  let s : World α := { s with grid := resetBricks }
  resetBallOnPaddle canvas s

/-- The function `launchBall()`, `u` being the value of `Math.random()`. -/
def launchBall (m : MathEnv α) (u : α) (s : World α) : World α :=
  let angle := (u * 0.9 + 0.15) * m.PI
  { s with
    state := { s.state with started := true }
    ball := { s.ball with
      vx := m.cos angle * s.ball.speed
      vy := -|m.sin angle * s.ball.speed| } }

/-! ## Counting the bricks -/

/-- The inner loop of `remainingBricks`, from column `c` for `n` more columns. -/
def countCols (grid : List (List Brick)) (r : Nat) : Nat → Nat → Nat → Option Nat
  | _, 0, count => some count
  | c, n + 1, count =>
    match brickAt grid r c with
    | none => none
    | some b => countCols grid r (c + 1) n (if b.alive then count + 1 else count)

/-- The outer loop of `remainingBricks`, from row `r` for `n` more rows. -/
def countRows (grid : List (List Brick)) : Nat → Nat → Nat → Option Nat
  | _, 0, count => some count
  | r, n + 1, count =>
    match countCols grid r 0 bricks.cols count with
    | none => none
    | some count => countRows grid (r + 1) n count

/-- The function `remainingBricks()` -/
def remainingBricks (grid : List (List Brick)) : Option Nat :=
  countRows grid 0 bricks.rows 0

/-! ## The update step -/

/-- The `// Paddle movement` block of `update`. -/
def paddleMove (canvas : Canvas α) (s : World α) : World α :=
  let left := keysHas s.keys "arrowleft" || keysHas s.keys "a"
  let right := keysHas s.keys "arrowright" || keysHas s.keys "d"
  let dx : α := (if right then 1 else 0) - (if left then 1 else 0)
  let x := s.paddle.x + dx * s.paddle.speed
  { s with paddle := { x := clamp x 0 (canvas.width - s.paddle.w), dx := dx } }

/-- The `// Ball movement` block of `update`. -/
def ballMove (b : Ball α) : Ball α :=
  { b with x := b.x + b.vx, y := b.y + b.vy }

/-- The `// Wall collisions` block of `update`: three `if`s in sequence. -/
def wallCollisions (canvas : Canvas α) (b : Ball α) : Ball α :=
  let b : Ball α := if b.x - b.r ≤ 0 then { b with x := b.r, vx := b.vx * -1 } else b
  let b : Ball α :=
    if b.x + b.r ≥ canvas.width then { b with x := canvas.width - b.r, vx := b.vx * -1 } else b
  let b : Ball α := if b.y - b.r ≤ 0 then { b with y := b.r, vy := b.vy * -1 } else b
  b

/-- The `// Paddle collision` block of `update`. -/
def paddleCollision (canvas : Canvas α) (p : Paddle α) (b : Ball α) : Ball α :=
  if b.vy > 0 ∧ circleRectCollision b.x b.y b.r p.x (p.y canvas) p.w p.h = true then
    let b : Ball α := { b with y := p.y canvas - b.r - 1, vy := -|b.vy| }
    let hitPos := (b.x - (p.x + p.w / 2)) / (p.w / 2)
    let b : Ball α := { b with vx := hitPos * b.speed * 1.1 }
    let maxVX := b.speed * 1.4
    { b with vx := clamp b.vx (-maxVX) maxVX }
  else b

/-- The value `hitPos` of the paddle collision block: the offset of the ball
from the centre of the paddle, in half paddle widths. -/
def hitPos (p : Paddle α) (b : Ball α) : α := (b.x - (p.x + p.w / 2)) / (p.w / 2)

/-- The rectangle test of the brick loop for the cell `(r, c)`. -/
def brickOverlap (b : Ball α) (r c : Nat) : Bool :=
  let bx := bricks.left + (c : α) * (bricks.w + bricks.pad)
  let by_ := bricks.top + (r : α) * (bricks.h + bricks.pad)
  circleRectCollision b.x b.y b.r bx by_ bricks.w bricks.h

/-- The body of the `if (circleRectCollision(...))` of the brick loop, for the
cell `(r, c)`: kill the brick, score, bounce, win check. -/
def brickHit (s : World α) (r c : Nat) : Option (World α) :=
  let s : World α :=
    { s with grid := s.grid.modify (fun row => row.modify (fun _ => { alive := false }) c) r }
  let s : World α := { s with state := { s.state with score := s.state.score + 10 } }
  let s : World α := { s with ball := { s.ball with vy := s.ball.vy * -1 } }
  match remainingBricks s.grid with
  | none => none
  | some n =>
    if n = 0 then some { s with state := { s.state with gameOver := true, paused := true } }
    else some s

/-- The inner loop of the brick scan on row `r`, from column `c` for `n` more
columns.  `none`: a `TypeError`; `some none`: the loop ran to its end;
`some (some w)`: `update` returned with the world `w`. -/
def scanCols (s : World α) (r : Nat) : Nat → Nat → Option (Option (World α))
  | _, 0 => some none
  | c, n + 1 =>
    match brickAt s.grid r c with
    | none => none
    | some b =>
      if !b.alive then scanCols s r (c + 1) n
      else if brickOverlap s.ball r c then (brickHit s r c).map some
      else scanCols s r (c + 1) n

/-- The outer loop of the brick scan, from row `r` for `n` more rows. -/
def scanRows (s : World α) : Nat → Nat → Option (Option (World α))
  | _, 0 => some none
  | r, n + 1 =>
    match scanCols s r 0 bricks.cols with
    | none => none
    | some (some w) => some (some w)
    | some none => scanRows s (r + 1) n

/-- The `// Brick collisions` block of `update`. -/
def brickCollisions (s : World α) : Option (World α) :=
  match scanRows s 0 bricks.rows with
  | none => none
  | some (some w) => some w
  | some none => some s

/-- The body of the `// Bottom: lose life` block of `update`. -/
def loseLife (canvas : Canvas α) (s : World α) : World α :=
  let s : World α := { s with state := { s.state with lives := s.state.lives - 1 } }
  if s.state.lives ≤ 0 then
    { s with state := { s.state with gameOver := true, paused := true } }
  else resetBallOnPaddle canvas s

/-- The function `update()`; `none` when it throws. -/
def update (canvas : Canvas α) (s : World α) : Option (World α) :=
  let s := paddleMove canvas s
  if !s.state.started then some (resetBallOnPaddle canvas s)
  else
    let s : World α := { s with ball := wallCollisions canvas (ballMove s.ball) }
    if s.ball.y - s.ball.r > canvas.height then some (loseLife canvas s)
    else brickCollisions { s with ball := paddleCollision canvas s.paddle s.ball }

/-! ## The loop and the key handlers -/

/-- One turn of `loop()`: `if (!state.paused) update();` (drawing reads the
world and changes nothing). -/
def loop (canvas : Canvas α) (s : World α) : Option (World α) :=
  if !s.state.paused then update canvas s else some s

/-- The `keydown` handler for an event with the given `key` and `code`; `u` is
the value `Math.random()` returns if the handler launches the ball.
`String.toLower` stands for `toLowerCase()`. -/
def keydown (m : MathEnv α) (canvas : Canvas α) (key code : String) (u : α)
    (s : World α) : World α :=
  let k := key.toLower
  let s : World α := { s with keys := keysAdd s.keys k }
  if k = " " ∨ code = "Space" then
    if s.state.gameOver then s
    else
      let s : World α :=
        if !s.state.started then launchBall m u s
        else { s with state := { s.state with paused := !s.state.paused } }
      if k = "r" then fullReset canvas s else s
  else
    if k = "r" then fullReset canvas s else s

/-- The `keyup` handler. -/
def keyup (key : String) (s : World α) : World α :=
  { s with keys := keysDelete s.keys key.toLower }

/-- The message `draw` writes when the game is over:
`remainingBricks() === 0 ? "You Win!" : "Game Over"`; `none` when
`remainingBricks` throws. -/
def gameOverMsg (grid : List (List Brick)) : Option String :=
  match remainingBricks grid with
  | none => none
  | some n => some (if n = 0 then "You Win!" else "Game Over")

/-! ## Runs of the program -/

/-- What can happen to the loaded script: an animation frame, a key going
down (with the draw `u` of `Math.random()` a launch would use), a key going
up. -/
inductive Event (α : Type) where
  | tick : Event α
  | keydown (key code : String) (u : α) : Event α
  | keyup (key : String) : Event α
deriving DecidableEq, Repr

/-- The effect of one event; `none` when `update` throws. -/
def step (m : MathEnv α) (canvas : Canvas α) : Event α → World α → Option (World α)
  | Event.tick, s => loop canvas s
  | Event.keydown key code u, s => some (keydown m canvas key code u s)
  | Event.keyup key, s => some (keyup key s)

/-- The effect of a list of events, in order. -/
def run (m : MathEnv α) (canvas : Canvas α) : List (Event α) → World α → Option (World α)
  | [], s => some s
  | e :: es, s =>
    match step m canvas e s with
    | none => none
    | some w => run m canvas es w

/-- The worlds the script can be in: the initial one and those an event
leads to. -/
inductive Reachable (m : MathEnv α) (canvas : Canvas α) : World α → Prop where
  | init : Reachable m canvas (initial canvas)
  | step (s w : World α) (e : Event α) :
      Reachable m canvas s → step m canvas e s = some w → Reachable m canvas w

end Defs

section Predicates

variable {α : Type} [LinearOrderedField α]

/-- The alive flag of the cell `(r, c)`; `false` when there is no such cell. -/
def aliveAt (grid : List (List Brick)) (r c : Nat) : Bool :=
  match brickAt grid r c with
  | none => false
  | some b => b.alive

/-- The grid has every cell the loops read: `rows` rows of at least `cols`
bricks, as `resetBricks` builds it. -/
def GridOK (grid : List (List Brick)) : Prop :=
  ∀ r, r < bricks.rows → ∀ c, c < bricks.cols → (brickAt grid r c).isSome = true

instance (grid : List (List Brick)) : Decidable (GridOK grid) := by
  unfold GridOK; infer_instance

/-- The cell `(r, c)` is before the cell `(r0, c0)` in row-major order. -/
def Before (r c r0 c0 : Nat) : Prop := r < r0 ∨ (r = r0 ∧ c < c0)

instance (r c r0 c0 : Nat) : Decidable (Before r c r0 c0) := by
  unfold Before; infer_instance

/-- The cell `(r, c)` of the scanned area holds an alive brick that the ball
of `s` overlaps. -/
def Overlapped (s : World α) (r c : Nat) : Prop :=
  r < bricks.rows ∧ c < bricks.cols ∧ aliveAt s.grid r c = true ∧ brickOverlap s.ball r c = true

instance (s : World α) (r c : Nat) : Decidable (Overlapped s r c) := by
  unfold Overlapped; infer_instance

/-- The cell `(r, c)` is the first overlapped alive brick in row-major order. -/
def FirstOverlapped (s : World α) (r c : Nat) : Prop :=
  Overlapped s r c ∧ ∀ r1 c1, Before r1 c1 r c → ¬ Overlapped s r1 c1

/-- What `brickHit s r c` leaves in `w`: the brick `(r, c)` dead, ten points
more, `vy` negated, and the game over exactly when no brick remains. -/
def HitResult (s : World α) (r c : Nat) (w : World α) : Prop :=
  w.grid = s.grid.modify (fun row => row.modify (fun _ => { alive := false }) c) r ∧
  w.paddle = s.paddle ∧ w.keys = s.keys ∧
  w.ball = { s.ball with vy := s.ball.vy * -1 } ∧
  w.state.score = s.state.score + 10 ∧
  w.state.lives = s.state.lives ∧
  w.state.started = s.state.started ∧
  ∃ k, remainingBricks w.grid = some k ∧
    (k = 0 → w.state.gameOver = true ∧ w.state.paused = true) ∧
    (k ≠ 0 → w.state.gameOver = s.state.gameOver ∧ w.state.paused = s.state.paused)

/-- The world after the paddle movement, the ball movement and the wall
collisions of `update`. -/
def afterWalls (canvas : Canvas α) (s : World α) : World α :=
  let s := paddleMove canvas s
  { s with ball := wallCollisions canvas (ballMove s.ball) }

/-- The world in which the brick scan of `update` runs: as `afterWalls`, with
the ball resolved against the paddle. -/
def beforeScan (canvas : Canvas α) (s : World α) : World α :=
  let s := afterWalls canvas s
  { s with ball := paddleCollision canvas s.paddle s.ball }

/-- The ball rests on the paddle: centred on it, just above it, not moving. -/
def Docked (canvas : Canvas α) (s : World α) : Prop :=
  s.ball =
    { x := s.paddle.x + s.paddle.w / 2
      y := s.paddle.y canvas - s.ball.r - 1
      vx := 0
      vy := 0 }

/-- The paddle lies within the arena. -/
def PaddleInArena (canvas : Canvas α) (s : World α) : Prop :=
  0 ≤ s.paddle.x ∧ s.paddle.x ≤ canvas.width - s.paddle.w

/-- The invariant `gameOver ⇒ paused`. -/
def GameOverPaused (s : World α) : Prop :=
  s.state.gameOver = true → s.state.paused = true

/-- What holds of every world the script can be in: the grid has the cells
the loops read, a ball that is not launched is docked, a game that is over is
paused, and a paused game has its ball launched. -/
def Inv (canvas : Canvas α) (s : World α) : Prop :=
  GridOK s.grid ∧
  (s.state.started = false → Docked canvas s) ∧
  GameOverPaused s ∧
  (s.state.paused = true → s.state.started = true)

/-- The ball, moved and resolved against the walls, has its top edge below
the bottom of the canvas. -/
def BelowFloor (canvas : Canvas α) (s : World α) : Prop :=
  (afterWalls canvas s).ball.y - (afterWalls canvas s).ball.r > canvas.height

/-- The paddle collision of `update` fires: the ball resolved against the
walls moves downward and overlaps the paddle rectangle. -/
def PaddleHit (canvas : Canvas α) (s : World α) : Prop :=
  (afterWalls canvas s).ball.vy > 0 ∧
    circleRectCollision (afterWalls canvas s).ball.x (afterWalls canvas s).ball.y
      (afterWalls canvas s).ball.r (afterWalls canvas s).paddle.x
      ((afterWalls canvas s).paddle.y canvas) (afterWalls canvas s).paddle.w
      (afterWalls canvas s).paddle.h = true

/-- The step reaches the brick scan: the ball is launched and, after the wall
resolution, is not below the floor. -/
def ReachesScan (canvas : Canvas α) (s : World α) : Prop :=
  s.state.started = true ∧ ¬ BelowFloor canvas s

/-- The ball of the world in which the brick scan runs lies wholly below the
lowest row of bricks, whose bottom edge is at `70 + 6 * 28 + 18 = 256`. -/
def BelowBricks (canvas : Canvas α) (s : World α) : Prop :=
  s.state.started = true ∧ ¬ BelowFloor canvas s ∧
    256 < (beforeScan canvas s).ball.y - (beforeScan canvas s).ball.r

instance (canvas : Canvas α) (s : World α) : Decidable (BelowFloor canvas s) := by
  unfold BelowFloor; infer_instance

instance (canvas : Canvas α) (s : World α) : Decidable (PaddleInArena canvas s) := by
  unfold PaddleInArena; infer_instance

instance (canvas : Canvas α) (s : World α) : Decidable (Docked canvas s) := by
  unfold Docked; infer_instance

instance (canvas : Canvas α) (s : World α) : Decidable (ReachesScan canvas s) := by
  unfold ReachesScan; infer_instance

instance (canvas : Canvas α) (s : World α) : Decidable (PaddleHit canvas s) := by
  unfold PaddleHit; infer_instance

instance (canvas : Canvas α) (s : World α) : Decidable (BelowBricks canvas s) := by
  unfold BelowBricks; infer_instance

/-- The number of dead bricks in a row. -/
def deadInRow (row : List Brick) : Nat := row.countP (fun b => !b.alive)

/-- The number of dead bricks in the grid. -/
def deadBricks (grid : List (List Brick)) : Nat := (grid.map deadInRow).sum

/-- The grid is exactly `rows` rows of `cols` bricks. -/
def GridExact (grid : List (List Brick)) : Prop :=
  grid.map List.length = List.replicate bricks.rows bricks.cols

instance (grid : List (List Brick)) : Decidable (GridExact grid) := by
  unfold GridExact; infer_instance

/-- The bookkeeping that holds of every world the script can be in: the grid
is exactly 7 x 8, lives are between 0 and 3, the score is ten points per dead
brick, and the game is over exactly when no life or no brick is left, never
both. -/
def Tally (s : World α) : Prop :=
  GridExact s.grid ∧ 0 ≤ s.state.lives ∧ s.state.lives ≤ 3 ∧
  s.state.score = 10 * (deadBricks s.grid : Int) ∧
  ∃ k, remainingBricks s.grid = some k ∧
    (s.state.gameOver = true ↔ (s.state.lives = 0 ∨ k = 0)) ∧
    ¬ (s.state.lives = 0 ∧ k = 0)

/-- The ball centre is at least a radius away from the left wall, the right
wall and the ceiling. -/
def BallInArena (canvas : Canvas α) (b : Ball α) : Prop :=
  b.r ≤ b.x ∧ b.x ≤ canvas.width - b.r ∧ b.r ≤ b.y

instance (canvas : Canvas α) (b : Ball α) : Decidable (BallInArena canvas b) := by
  unfold BallInArena; infer_instance

/-- No rounding occurs in the double computation of the collision test: the
two far edges of the rectangle, the two offsets to the clamped point, their
squares, the sum of the squares and `r * r` are doubles. -/
def ExactTest (cx cy r rx ry rw rh : ℚ) : Prop :=
  roundDouble (rx + rw) = rx + rw ∧ roundDouble (ry + rh) = ry + rh ∧
  roundDouble (cx - clamp cx rx (rx + rw)) = cx - clamp cx rx (rx + rw) ∧
  roundDouble (cy - clamp cy ry (ry + rh)) = cy - clamp cy ry (ry + rh) ∧
  roundDouble ((cx - clamp cx rx (rx + rw)) * (cx - clamp cx rx (rx + rw))) =
    (cx - clamp cx rx (rx + rw)) * (cx - clamp cx rx (rx + rw)) ∧
  roundDouble ((cy - clamp cy ry (ry + rh)) * (cy - clamp cy ry (ry + rh))) =
    (cy - clamp cy ry (ry + rh)) * (cy - clamp cy ry (ry + rh)) ∧
  roundDouble ((cx - clamp cx rx (rx + rw)) * (cx - clamp cx rx (rx + rw)) +
      (cy - clamp cy ry (ry + rh)) * (cy - clamp cy ry (ry + rh))) =
    (cx - clamp cx rx (rx + rw)) * (cx - clamp cx rx (rx + rw)) +
      (cy - clamp cy ry (ry + rh)) * (cy - clamp cy ry (ry + rh)) ∧
  roundDouble (r * r) = r * r

instance (cx cy r rx ry rw rh : ℚ) : Decidable (ExactTest cx cy r rx ry rw rh) := by
  unfold ExactTest; infer_instance

/-- A shortcut for `update` used to evaluate long runs: when the ball is below
all bricks the scan is skipped.  `updateFast_eq` shows it equal to `update` on
a well-formed grid. -/
def updateFast (canvas : Canvas α) (s : World α) : Option (World α) :=
  if BelowBricks canvas s then some (beforeScan canvas s) else update canvas s

/-- As `run`, with `updateFast` for `update`. -/
def runFast (m : MathEnv α) (canvas : Canvas α) :
    List (Event α) → World α → Option (World α)
  | [], s => some s
  | Event.tick :: es, s =>
    match (if !s.state.paused then updateFast canvas s else some s) with
    | none => none
    | some w => runFast m canvas es w
  | e :: es, s =>
    match step m canvas e s with
    | none => none
    | some w => runFast m canvas es w

end Predicates

/-! ## Concrete worlds used to evaluate the definitions -/

/-- A 480 x 640 canvas. -/
def cvQ : Canvas ℚ := { width := 480, height := 640 }

/-- A `Math` whose cosine is 0 and whose sine is 1, the values at a right
angle: every launch is straight up. -/
def mathQ : MathEnv ℚ := { cos := fun _ => 0, sin := fun _ => 1, PI := 22 / 7 }

/-- A ball in flight over the untouched grid that, once moved to (133, 104),
overlaps the two adjacent bricks (1, 1) and (1, 2). -/
def twoBricksWorld : World ℚ :=
  { initial cvQ with
    state := { score := 0, lives := 3, paused := false, started := true, gameOver := false }
    ball := { x := 130, y := 100, vx := 3, vy := 4 } }

/-- A ball in flight about to fall below the floor of `cvQ`. -/
def fallingWorld : World ℚ :=
  { initial cvQ with
    state := { score := 20, lives := 3, paused := false, started := true, gameOver := false }
    ball := { x := 200, y := 645, vx := -3, vy := 4 } }

/-- A grid whose only alive brick is (1, 1). -/
def lastBrickGrid : List (List Brick) :=
  (List.range 7).map fun r => (List.range 8).map fun c => { alive := r == 1 && c == 1 }

/-- A ball in flight that, once moved to (103, 104), overlaps the last alive
brick (1, 1). -/
def lastBrickWorld : World ℚ :=
  { state := { score := 550, lives := 2, paused := false, started := true, gameOver := false }
    paddle := { x := 185, dx := 0 }
    ball := { x := 100, y := 100, vx := 3, vy := 4 }
    grid := lastBrickGrid
    keys := [] }

/-- The world `update` leaves from `lastBrickWorld`: every brick dead, ten
points more, the ball at (103, 104) going up, the game over and paused. -/
def lastBrickDone : World ℚ :=
  { state := { score := 560, lives := 2, paused := true, started := true, gameOver := true }
    paddle := { x := 185, dx := 0 }
    ball := { x := 103, y := 104, vx := 3, vy := -4 }
    grid := List.replicate 7 (List.replicate 8 { alive := false })
    keys := [] }

/-- The scenario of the specification: a ball at (100, 100) moving by (3, 4)
over the untouched grid. -/
def exampleWorld : World ℚ :=
  { initial cvQ with
    state := { score := 0, lives := 3, paused := false, started := true, gameOver := false }
    ball := { x := 100, y := 100, vx := 3, vy := 4 } }

/-- A ball in flight that crosses the left wall in its next move. -/
def leftWallWorld : World ℚ :=
  { initial cvQ with
    state := { score := 0, lives := 3, paused := false, started := true, gameOver := false }
    ball := { x := 8, y := 400, vx := -3, vy := 4 } }

/-- A play that loses the three lives on the 480 x 640 canvas: the paddle is
driven away from under the ball, which is launched straight up, bounces off a
brick of the lowest row and falls through the floor, three times. -/
def lostRun : List (Event ℚ) :=
  [Event.keydown "a" "KeyA" 0, Event.keydown " " "Space" 0] ++ List.replicate 146 Event.tick ++
  [Event.keyup "a", Event.keydown "d" "KeyD" 0, Event.keydown " " "Space" 0] ++
    List.replicate 146 Event.tick ++
  [Event.keyup "d", Event.keydown "a" "KeyA" 0, Event.keydown " " "Space" 0] ++
    List.replicate 146 Event.tick

/-- The world `lostRun` ends in: no life left, three bricks of the lowest row
dead, the game over and paused. -/
def lostWorld : World ℚ :=
  { state := { score := 30, lives := 0, paused := true, started := true, gameOver := true }
    paddle := { x := 0, dx := -1 }
    ball := { x := 425, y := 652, vx := 0, vy := 5 }
    grid := (List.range 7).map fun r => (List.range 8).map fun c =>
      { alive := !(r == 6 && (c == 0 || c == 3 || c == 7)) }
    keys := [" ", "a"] }

/-- A lost game in which, besides, every brick is dead. -/
def deadWorld : World ℚ :=
  { lostWorld with grid := List.replicate 7 (List.replicate 8 { alive := false }) }

/-- A ball in flight that, once moved to (180, 607), overlaps the upper left
corner (185, 610) of the paddle while its centre is left of the paddle. -/
def cornerWorld : World ℚ :=
  { initial cvQ with
    state := { score := 0, lives := 3, paused := false, started := true, gameOver := false }
    ball := { x := 177, y := 603, vx := 3, vy := 4 } }

/-- A ball in flight that, once moved to (253, 604), overlaps the top of the
paddle a little right of its centre. -/
def paddleHitWorld : World ℚ :=
  { initial cvQ with
    state := { score := 0, lives := 3, paused := false, started := true, gameOver := false }
    ball := { x := 250, y := 600, vx := 3, vy := 4 } }

/-! ## Lemmas on the grid -/

section GridLemmas

theorem brickAt_kill (grid : List (List Brick)) (r c r1 c1 : Nat) :
    brickAt (grid.modify (fun row => row.modify (fun _ => { alive := false }) c) r) r1 c1 =
      if r1 = r ∧ c1 = c then (brickAt grid r c).map (fun _ => { alive := false })
      else brickAt grid r1 c1 := by
  unfold brickAt
  rw [List.getElem?_modify]
  by_cases hr : r = r1
  · subst hr
    cases hg : grid[r]? with
    | none => simp
    | some row =>
      simp only [Option.map_eq_map, Option.map_some', if_true, true_and]
      rw [List.getElem?_modify]
      by_cases hc : c = c1
      · subst hc; simp
      · have hc1 : ¬ c1 = c := fun h => hc h.symm
        simp [hc, hc1]
  · have hr1 : ¬ r1 = r := fun h => hr h.symm
    cases hg : grid[r1]? <;> simp [hr, hr1]

theorem gridOK_kill (grid : List (List Brick)) (r c : Nat) (h : GridOK grid) :
    GridOK (grid.modify (fun row => row.modify (fun _ => { alive := false }) c) r) := by
  intro r1 hr1 c1 hc1
  rw [brickAt_kill]
  have h1 := h r1 hr1 c1 hc1
  split
  · next heq => obtain ⟨rfl, rfl⟩ := heq; simpa using h1
  · exact h1

theorem countCols_total (grid : List (List Brick)) (r : Nat)
    (h : ∀ c, c < bricks.cols → (brickAt grid r c).isSome = true) :
    ∀ n c count, c + n ≤ bricks.cols → ∃ k, countCols grid r c n count = some k := by
  intro n
  induction n with
  | zero => intro c count _; exact ⟨count, rfl⟩
  | succ n ih =>
    intro c count hc
    have h1 := h c (by omega)
    cases hb : brickAt grid r c with
    | none => simp [hb] at h1
    | some b =>
      simp only [countCols, hb]
      exact ih (c + 1) _ (by omega)

theorem countRows_total (grid : List (List Brick)) (h : GridOK grid) :
    ∀ n r count, r + n ≤ bricks.rows → ∃ k, countRows grid r n count = some k := by
  intro n
  induction n with
  | zero => intro r count _; exact ⟨count, rfl⟩
  | succ n ih =>
    intro r count hr
    obtain ⟨k, hk⟩ := countCols_total grid r (h r (by omega)) bricks.cols 0 count (by omega)
    simp only [countRows, hk]
    exact ih (r + 1) k (by omega)

theorem remainingBricks_total (grid : List (List Brick)) (h : GridOK grid) :
    ∃ k, remainingBricks grid = some k :=
  countRows_total grid h bricks.rows 0 0 (by omega)

end GridLemmas

/-! ## Lemmas on the brick scan -/

section ScanLemmas

variable {α : Type} [LinearOrderedField α]

theorem brickHit_spec (s : World α) (r c : Nat) (h : GridOK s.grid) :
    ∃ w, brickHit s r c = some w ∧ HitResult s r c w := by
  obtain ⟨k, hk⟩ := remainingBricks_total _ (gridOK_kill s.grid r c h)
  simp only [brickHit, hk]
  by_cases h0 : k = 0
  · subst h0
    simp only [if_true]
    refine ⟨_, rfl, ?_⟩
    exact ⟨rfl, rfl, rfl, rfl, rfl, rfl, rfl, 0, hk, fun _ => ⟨rfl, rfl⟩, fun h => absurd rfl h⟩
  · simp only [h0, if_false]
    refine ⟨_, rfl, ?_⟩
    exact ⟨rfl, rfl, rfl, rfl, rfl, rfl, rfl, k, hk, fun h => absurd h h0, fun _ => ⟨rfl, rfl⟩⟩

theorem scanCols_spec (s : World α) (r : Nat) (hr : r < bricks.rows) (h : GridOK s.grid) :
    ∀ n c, c + n ≤ bricks.cols →
      (scanCols s r c n = some none ∧ ∀ c1, c ≤ c1 → c1 < c + n → ¬ Overlapped s r c1) ∨
      (∃ c0, c ≤ c0 ∧ c0 < c + n ∧ Overlapped s r c0 ∧
        (∀ c1, c ≤ c1 → c1 < c0 → ¬ Overlapped s r c1) ∧
        scanCols s r c n = (brickHit s r c0).map some) := by
  intro n
  induction n with
  | zero =>
    intro c _
    exact Or.inl ⟨rfl, fun c1 h1 h2 => by omega⟩
  | succ n ih =>
    intro c hc
    have hsome := h r hr c (by omega)
    cases hb : brickAt s.grid r c with
    | none => simp [hb] at hsome
    | some b =>
      have hstep : ¬ Overlapped s r c →
          scanCols s r c (n + 1) = scanCols s r (c + 1) n := by
        intro hno
        simp only [scanCols, hb]
        by_cases ha : b.alive = true
        · have hov : brickOverlap s.ball r c = false := by
            cases hq : brickOverlap s.ball r c with
            | false => rfl
            | true =>
              exact absurd ⟨hr, by omega, by simp [aliveAt, hb, ha], hq⟩ hno
          simp [ha, hov]
        · simp [ha]
      by_cases hov : Overlapped s r c
      · refine Or.inr ⟨c, le_refl c, by omega, hov, fun c1 h1 h2 => by omega, ?_⟩
        obtain ⟨_, _, ha, hq⟩ := hov
        have ha1 : b.alive = true := by simpa [aliveAt, hb] using ha
        simp [scanCols, hb, ha1, hq]
      · rw [hstep hov]
        rcases ih (c + 1) (by omega) with ⟨h1, h2⟩ | ⟨c0, h1, h2, h3, h4, h5⟩
        · refine Or.inl ⟨h1, fun c1 hc1 hc2 => ?_⟩
          by_cases hcc : c1 = c
          · subst hcc; exact hov
          · exact h2 c1 (by omega) (by omega)
        · refine Or.inr ⟨c0, by omega, by omega, h3, fun c1 hc1 hc2 => ?_, h5⟩
          by_cases hcc : c1 = c
          · subst hcc; exact hov
          · exact h4 c1 (by omega) hc2

theorem scanRows_spec (s : World α) (h : GridOK s.grid) :
    ∀ n r, r + n ≤ bricks.rows →
      (scanRows s r n = some none ∧ ∀ r1 c1, r ≤ r1 → r1 < r + n → ¬ Overlapped s r1 c1) ∨
      (∃ r0 c0 w, r ≤ r0 ∧ Overlapped s r0 c0 ∧
        (∀ r1 c1, r ≤ r1 → Before r1 c1 r0 c0 → ¬ Overlapped s r1 c1) ∧
        HitResult s r0 c0 w ∧ scanRows s r n = some (some w)) := by
  intro n
  induction n with
  | zero =>
    intro r _
    exact Or.inl ⟨rfl, fun r1 c1 h1 h2 => by omega⟩
  | succ n ih =>
    intro r hr
    rcases scanCols_spec s r (by omega) h bricks.cols 0 (by omega) with
      ⟨h1, h2⟩ | ⟨c0, _, h2, h3, h4, h5⟩
    · have hrow : ∀ c1, ¬ Overlapped s r c1 := by
        intro c1 hov
        exact h2 c1 (Nat.zero_le _) (by have := hov.2.1; omega) hov
      have hstep : scanRows s r (n + 1) = scanRows s (r + 1) n := by
        simp only [scanRows, h1]
      rw [hstep]
      rcases ih (r + 1) (by omega) with ⟨g1, g2⟩ | ⟨r0, c0, w, g1, g2, g3, g4, g5⟩
      · refine Or.inl ⟨g1, fun r1 c1 hr1 hr2 => ?_⟩
        by_cases hrr : r1 = r
        · subst hrr; exact hrow c1
        · exact g2 r1 c1 (by omega) (by omega)
      · refine Or.inr ⟨r0, c0, w, by omega, g2, fun r1 c1 hr1 hb => ?_, g4, g5⟩
        by_cases hrr : r1 = r
        · subst hrr; exact hrow c1
        · exact g3 r1 c1 (by omega) hb
    · obtain ⟨w, hw, hres⟩ := brickHit_spec s r c0 h
      refine Or.inr ⟨r, c0, w, le_refl r, h3, fun r1 c1 hr1 hb => ?_, hres, ?_⟩
      · rcases hb with hb | ⟨rfl, hb⟩
        · omega
        · exact h4 c1 (Nat.zero_le _) hb
      · simp only [scanRows, h5, hw, Option.map_some']

/-- The brick scan on a well-formed grid: either no alive brick is overlapped
and the world is returned as it is, or the first overlapped alive brick in
row-major order is hit. -/
theorem brickCollisions_spec (s : World α) (h : GridOK s.grid) :
    (brickCollisions s = some s ∧ ∀ r c, ¬ Overlapped s r c) ∨
    (∃ r c w, FirstOverlapped s r c ∧ HitResult s r c w ∧ brickCollisions s = some w) := by
  rcases scanRows_spec s h bricks.rows 0 (by omega) with
    ⟨h1, h2⟩ | ⟨r0, c0, w, _, h2, h3, h4, h5⟩
  · refine Or.inl ⟨by simp only [brickCollisions, h1], fun r c hov => ?_⟩
    exact h2 r c (Nat.zero_le _) (by have := hov.1; omega) hov
  · refine Or.inr ⟨r0, c0, w, ⟨h2, fun r1 c1 hb => h3 r1 c1 (Nat.zero_le _) hb⟩, h4, ?_⟩
    simp only [brickCollisions, h5]

end ScanLemmas

/-! ## The branches of `update` -/

section UpdateLemmas

variable {α : Type} [LinearOrderedField α]

theorem update_docked (canvas : Canvas α) (s : World α) (h : s.state.started = false) :
    update canvas s = some (resetBallOnPaddle canvas (paddleMove canvas s)) := by
  simp [update, paddleMove, h]

theorem update_floor (canvas : Canvas α) (s : World α) (h : s.state.started = true)
    (hb : BelowFloor canvas s) :
    update canvas s = some (loseLife canvas (afterWalls canvas s)) := by
  have hb1 := hb
  simp only [BelowFloor, afterWalls, paddleMove] at hb1
  simp only [update, paddleMove, afterWalls, h]
  simp [hb1]

theorem update_scan (canvas : Canvas α) (s : World α) (h : ReachesScan canvas s) :
    update canvas s = brickCollisions (beforeScan canvas s) := by
  obtain ⟨h1, hb⟩ := h
  simp only [BelowFloor, afterWalls, paddleMove] at hb
  simp only [update, paddleMove, afterWalls, beforeScan, h1]
  simp [hb]

theorem beforeScan_grid (canvas : Canvas α) (s : World α) :
    (beforeScan canvas s).grid = s.grid := rfl

theorem beforeScan_state (canvas : Canvas α) (s : World α) :
    (beforeScan canvas s).state = s.state := rfl

theorem afterWalls_grid (canvas : Canvas α) (s : World α) :
    (afterWalls canvas s).grid = s.grid := rfl

theorem afterWalls_state (canvas : Canvas α) (s : World α) :
    (afterWalls canvas s).state = s.state := rfl

theorem loseLife_grid (canvas : Canvas α) (s : World α) :
    (loseLife canvas s).grid = s.grid := by
  unfold loseLife
  simp only
  split <;> rfl

theorem brickHit_some (s w : World α) (r c : Nat) (h : brickHit s r c = some w) :
    HitResult s r c w := by
  unfold brickHit at h
  simp only at h
  split at h
  · exact Option.noConfusion h
  · next k hk =>
    by_cases h0 : k = 0
    · subst h0
      simp only [if_true, Option.some.injEq] at h
      subst h
      exact ⟨rfl, rfl, rfl, rfl, rfl, rfl, rfl, 0, hk, fun _ => ⟨rfl, rfl⟩, fun h => absurd rfl h⟩
    · simp only [h0, if_false, Option.some.injEq] at h
      subst h
      exact ⟨rfl, rfl, rfl, rfl, rfl, rfl, rfl, k, hk, fun h => absurd h h0, fun _ => ⟨rfl, rfl⟩⟩

theorem scanCols_some (s w : World α) (r : Nat) :
    ∀ n c, scanCols s r c n = some (some w) → ∃ c0, brickHit s r c0 = some w := by
  intro n
  induction n with
  | zero =>
    intro c h
    simp [scanCols] at h
  | succ n ih =>
    intro c h
    unfold scanCols at h
    split at h
    · exact Option.noConfusion h
    · next b hb =>
      split at h
      · exact ih (c + 1) h
      · split at h
        · refine ⟨c, ?_⟩
          cases hq : brickHit s r c with
          | none => simp [hq] at h
          | some w1 => simpa [hq] using h
        · exact ih (c + 1) h

theorem scanRows_some (s w : World α) :
    ∀ n r, scanRows s r n = some (some w) → ∃ r0 c0, brickHit s r0 c0 = some w := by
  intro n
  induction n with
  | zero =>
    intro r h
    simp [scanRows] at h
  | succ n ih =>
    intro r h
    unfold scanRows at h
    split at h
    · exact Option.noConfusion h
    · next w1 hw1 =>
      simp only [Option.some.injEq] at h
      subst h
      exact ⟨r, scanCols_some s w1 r _ _ hw1⟩
    · exact ih (r + 1) h

theorem brickCollisions_some (s w : World α) (h : brickCollisions s = some w) :
    w = s ∨ ∃ r c, HitResult s r c w := by
  unfold brickCollisions at h
  split at h
  · exact Option.noConfusion h
  · next w1 hw1 =>
    simp only [Option.some.injEq] at h
    subst h
    obtain ⟨r, c, hrc⟩ := scanRows_some s w1 _ _ hw1
    exact Or.inr ⟨r, c, brickHit_some s w1 r c hrc⟩
  · simp only [Option.some.injEq] at h
    exact Or.inl h.symm

/-- The ways `update` can return, on any grid. -/
theorem update_some (canvas : Canvas α) (s w : World α) (h : update canvas s = some w) :
    (s.state.started = false ∧ w = resetBallOnPaddle canvas (paddleMove canvas s)) ∨
    (s.state.started = true ∧ BelowFloor canvas s ∧
      w = loseLife canvas (afterWalls canvas s)) ∨
    (ReachesScan canvas s ∧
      (w = beforeScan canvas s ∨ ∃ r c, HitResult (beforeScan canvas s) r c w)) := by
  cases hs : s.state.started with
  | false =>
    rw [update_docked canvas s hs] at h
    exact Or.inl ⟨rfl, (Option.some.inj h).symm⟩
  | true =>
    by_cases hb : BelowFloor canvas s
    · rw [update_floor canvas s hs hb] at h
      exact Or.inr (Or.inl ⟨rfl, hb, (Option.some.inj h).symm⟩)
    · have hr : ReachesScan canvas s := ⟨hs, hb⟩
      rw [update_scan canvas s hr] at h
      exact Or.inr (Or.inr ⟨hr, brickCollisions_some _ w h⟩)

theorem update_total (canvas : Canvas α) (s : World α) (h : GridOK s.grid) :
    ∃ w, update canvas s = some w := by
  cases hs : s.state.started with
  | false => exact ⟨_, update_docked canvas s hs⟩
  | true =>
    by_cases hb : BelowFloor canvas s
    · exact ⟨_, update_floor canvas s hs hb⟩
    · rw [update_scan canvas s ⟨hs, hb⟩]
      rcases brickCollisions_spec (beforeScan canvas s) h with ⟨h1, _⟩ | ⟨_, _, w, _, _, h1⟩
      · exact ⟨_, h1⟩
      · exact ⟨w, h1⟩

/-- The three ways through `update` on a well-formed grid. -/
theorem update_cases (canvas : Canvas α) (s : World α) (h : GridOK s.grid) :
    (s.state.started = false ∧
      update canvas s = some (resetBallOnPaddle canvas (paddleMove canvas s))) ∨
    (s.state.started = true ∧ BelowFloor canvas s ∧
      update canvas s = some (loseLife canvas (afterWalls canvas s))) ∨
    (ReachesScan canvas s ∧
      ((update canvas s = some (beforeScan canvas s) ∧
          ∀ r c, ¬ Overlapped (beforeScan canvas s) r c) ∨
        ∃ r c w, FirstOverlapped (beforeScan canvas s) r c ∧
          HitResult (beforeScan canvas s) r c w ∧ update canvas s = some w)) := by
  cases hs : s.state.started with
  | false => exact Or.inl ⟨rfl, update_docked canvas s hs⟩
  | true =>
    by_cases hb : BelowFloor canvas s
    · exact Or.inr (Or.inl ⟨rfl, hb, update_floor canvas s hs hb⟩)
    · have hr : ReachesScan canvas s := ⟨hs, hb⟩
      refine Or.inr (Or.inr ⟨hr, ?_⟩)
      rw [update_scan canvas s hr]
      exact brickCollisions_spec (beforeScan canvas s) h

theorem loseLife_paddle (canvas : Canvas α) (s : World α) :
    (loseLife canvas s).paddle = s.paddle := by
  unfold loseLife
  simp only
  split <;> rfl

theorem loseLife_keys (canvas : Canvas α) (s : World α) :
    (loseLife canvas s).keys = s.keys := by
  unfold loseLife
  simp only
  split <;> rfl

/-- The life-loss block: the last life ends the game where the ball fell,
any other life docks the ball. -/
theorem loseLife_cases (canvas : Canvas α) (s : World α) :
    (s.state.lives - 1 ≤ 0 ∧
      loseLife canvas s = { s with state :=
        { s.state with lives := s.state.lives - 1, gameOver := true, paused := true } }) ∨
    (¬ s.state.lives - 1 ≤ 0 ∧
      loseLife canvas s = resetBallOnPaddle canvas
        { s with state := { s.state with lives := s.state.lives - 1 } }) := by
  by_cases hl : s.state.lives - 1 ≤ 0
  · exact Or.inl ⟨hl, by simp only [loseLife, hl, if_true]⟩
  · exact Or.inr ⟨hl, by simp only [loseLife, hl, if_false]⟩

/-- Whatever way `update` returns, the paddle is where `paddleMove` put it and
the held keys are as they were. -/
theorem update_paddle_keys (canvas : Canvas α) (s w : World α)
    (h : update canvas s = some w) :
    w.paddle = (paddleMove canvas s).paddle ∧ w.keys = s.keys := by
  rcases update_some canvas s w h with ⟨_, hw⟩ | ⟨_, _, hw⟩ | ⟨_, hw | ⟨r, c, hres⟩⟩
  · rw [hw]; exact ⟨rfl, rfl⟩
  · rw [hw]; exact ⟨loseLife_paddle canvas _, loseLife_keys canvas _⟩
  · rw [hw]; exact ⟨rfl, rfl⟩
  · exact ⟨hres.2.1, hres.2.2.1⟩

end UpdateLemmas

/-! ## The key handlers and the invariant -/

section RunLemmas

variable {α : Type} [LinearOrderedField α]

/-- The four outcomes of the `keydown` handler: only the key set changes, the
ball is launched, the pause flag is toggled, or the game is reset. -/
theorem keydown_cases (m : MathEnv α) (canvas : Canvas α) (key code : String) (u : α)
    (s : World α) :
    keydown m canvas key code u s = { s with keys := keysAdd s.keys key.toLower } ∨
    (s.state.gameOver = false ∧ s.state.started = false ∧
      keydown m canvas key code u s =
        launchBall m u { s with keys := keysAdd s.keys key.toLower }) ∨
    (s.state.gameOver = false ∧ s.state.started = true ∧
      keydown m canvas key code u s =
        { s with keys := keysAdd s.keys key.toLower,
                 state := { s.state with paused := !s.state.paused } }) ∨
    (key.toLower = "r" ∧ (s.state.gameOver = true → ¬ (key.toLower = " " ∨ code = "Space")) ∧
      ∃ s2 : World α, s2.keys = keysAdd s.keys key.toLower ∧
        keydown m canvas key code u s = fullReset canvas s2) := by
  by_cases hsp : key.toLower = " " ∨ code = "Space"
  · by_cases hg : s.state.gameOver = true
    · left
      simp only [keydown, if_pos hsp, hg, if_true]
    · have hg0 : s.state.gameOver = false := by simpa using hg
      by_cases hst : s.state.started = true
      · by_cases hr : key.toLower = "r"
        · right; right; right
          refine ⟨hr, fun h => absurd h hg,
            ({ s with
                keys := keysAdd s.keys key.toLower
                state := { s.state with paused := !s.state.paused } } : World α), rfl, ?_⟩
          simp [keydown, if_pos hsp, hg0, hst, if_pos hr]
        · right; right; left
          refine ⟨hg0, hst, ?_⟩
          simp [keydown, if_pos hsp, hg0, hst, if_neg hr]
      · have hst0 : s.state.started = false := by simpa using hst
        by_cases hr : key.toLower = "r"
        · right; right; right
          refine ⟨hr, fun h => absurd h hg,
            launchBall m u { s with keys := keysAdd s.keys key.toLower }, rfl, ?_⟩
          simp [keydown, if_pos hsp, hg0, hst0, if_pos hr]
        · right; left
          refine ⟨hg0, hst0, ?_⟩
          simp [keydown, if_pos hsp, hg0, hst0, if_neg hr]
  · by_cases hr : key.toLower = "r"
    · right; right; right
      refine ⟨hr, fun _ => hsp, ({ s with keys := keysAdd s.keys key.toLower } : World α), rfl, ?_⟩
      simp only [keydown, if_neg hsp, if_pos hr]
    · left
      simp only [keydown, if_neg hsp, if_neg hr]

theorem gridOK_resetBricks : GridOK resetBricks := by decide

theorem clamp_bounds (v lo hi : α) (h : lo ≤ hi) : lo ≤ clamp v lo hi ∧ clamp v lo hi ≤ hi :=
  ⟨le_max_left _ _, max_le h (min_le_left _ _)⟩

theorem paddleMove_inArena (canvas : Canvas α) (s : World α) (hW : 110 ≤ canvas.width) :
    PaddleInArena canvas (paddleMove canvas s) := by
  have h0 : (0 : α) ≤ canvas.width - 110 := by linarith
  exact clamp_bounds _ 0 (canvas.width - 110) h0

theorem fullReset_inArena (canvas : Canvas α) (s : World α) (hW : 110 ≤ canvas.width) :
    PaddleInArena canvas (fullReset canvas s) := by
  have e : (fullReset canvas s).paddle.x = (canvas.width - 110) / 2 := rfl
  have e2 : (fullReset canvas s).paddle.w = 110 := rfl
  unfold PaddleInArena
  rw [e, e2]
  constructor <;> linarith

theorem initial_inArena (canvas : Canvas α) (hW : 110 ≤ canvas.width) :
    PaddleInArena canvas (initial canvas) := by
  have e : (initial canvas).paddle.x = (canvas.width - 110) / 2 := rfl
  have e2 : (initial canvas).paddle.w = 110 := rfl
  unfold PaddleInArena
  rw [e, e2]
  constructor <;> linarith

theorem update_inArena (canvas : Canvas α) (s w : World α) (hW : 110 ≤ canvas.width)
    (h : update canvas s = some w) : PaddleInArena canvas w := by
  have hp := (update_paddle_keys canvas s w h).1
  have hm := paddleMove_inArena canvas s hW
  unfold PaddleInArena at hm ⊢
  rw [hp]
  exact hm

theorem keydown_inArena (m : MathEnv α) (canvas : Canvas α) (key code : String) (u : α)
    (s : World α) (hW : 110 ≤ canvas.width) (hi : PaddleInArena canvas s) :
    PaddleInArena canvas (keydown m canvas key code u s) := by
  rcases keydown_cases m canvas key code u s with e | ⟨_, _, e⟩ | ⟨_, _, e⟩ | ⟨_, _, s2, _, e⟩
  · rw [e]; exact hi
  · rw [e]; exact hi
  · rw [e]; exact hi
  · rw [e]; exact fullReset_inArena canvas s2 hW

theorem reachable_inArena (m : MathEnv α) (canvas : Canvas α) (hW : 110 ≤ canvas.width)
    (s : World α) (h : Reachable m canvas s) : PaddleInArena canvas s := by
  induction h with
  | init => exact initial_inArena canvas hW
  | step s w e _ hstep ih =>
    cases e with
    | tick =>
      simp only [step, loop] at hstep
      cases hp : s.state.paused with
      | true =>
        simp only [hp, Bool.not_true, Bool.false_eq_true, if_false, Option.some.injEq] at hstep
        rw [← hstep]; exact ih
      | false =>
        simp only [hp, Bool.not_false, if_true] at hstep
        exact update_inArena canvas s w hW hstep
    | keydown key code u =>
      simp only [step, Option.some.injEq] at hstep
      rw [← hstep]; exact keydown_inArena m canvas key code u s hW ih
    | keyup key =>
      simp only [step, Option.some.injEq] at hstep
      rw [← hstep]; exact ih

/-- The pause invariant survives `update` from any world, run by the loop or
not. -/
theorem update_gameOverPaused (canvas : Canvas α) (s w : World α)
    (hi : GameOverPaused s) (h : update canvas s = some w) : GameOverPaused w := by
  rcases update_some canvas s w h with ⟨_, hw⟩ | ⟨_, _, hw⟩ | ⟨_, hw | ⟨r, c, hres⟩⟩
  · rw [hw]; exact hi
  · rcases loseLife_cases canvas (afterWalls canvas s) with ⟨_, e⟩ | ⟨_, e⟩
    · rw [hw, e]; exact fun _ => rfl
    · rw [hw, e]; exact hi
  · rw [hw]; exact hi
  · obtain ⟨_, _, _, _, _, _, _, k, _, h0, h1⟩ := hres
    by_cases hk : k = 0
    · exact fun _ => (h0 hk).2
    · intro hg
      rw [(h1 hk).2]
      rw [(h1 hk).1] at hg
      exact hi hg

theorem keydown_gameOverPaused (m : MathEnv α) (canvas : Canvas α) (key code : String)
    (u : α) (s : World α) (hi : GameOverPaused s) :
    GameOverPaused (keydown m canvas key code u s) := by
  rcases keydown_cases m canvas key code u s with e | ⟨_, _, e⟩ | ⟨hg, _, e⟩ | ⟨_, _, s2, _, e⟩
  · rw [e]; exact hi
  · rw [e]; exact hi
  · rw [e]
    intro hg1
    have hg2 : s.state.gameOver = true := hg1
    rw [hg] at hg2
    exact Bool.noConfusion hg2
  · rw [e]
    intro hg1
    exact Bool.noConfusion hg1

theorem inv_initial (canvas : Canvas α) : Inv canvas (initial canvas) :=
  ⟨gridOK_resetBricks, fun _ => rfl, fun h => Bool.noConfusion h, fun h => Bool.noConfusion h⟩

theorem inv_fullReset (canvas : Canvas α) (s : World α) : Inv canvas (fullReset canvas s) :=
  ⟨gridOK_resetBricks, fun _ => rfl, fun h => Bool.noConfusion h, fun h => Bool.noConfusion h⟩

/-- The invariant survives the `update` the loop runs, that is, when the game
is not paused. -/
theorem inv_update (canvas : Canvas α) (s w : World α) (hi : Inv canvas s)
    (hp : s.state.paused = false) (h : update canvas s = some w) : Inv canvas w := by
  have hgo := update_gameOverPaused canvas s w hi.2.2.1 h
  obtain ⟨hgrid, hdock, _, hps⟩ := hi
  rcases update_some canvas s w h with ⟨_, hw⟩ | ⟨hs, _, hw⟩ | ⟨hr, hw | ⟨r, c, hres⟩⟩
  · refine ⟨by rw [hw]; exact hgrid, fun _ => by rw [hw]; rfl, hgo, fun hpw => ?_⟩
    rw [hw] at hpw
    have : s.state.paused = true := hpw
    rw [hp] at this
    exact Bool.noConfusion this
  · rcases loseLife_cases canvas (afterWalls canvas s) with ⟨_, e⟩ | ⟨_, e⟩
    · rw [e] at hw
      refine ⟨by rw [hw]; exact hgrid, fun hst => ?_, hgo, fun _ => by rw [hw]; exact hs⟩
      rw [hw] at hst
      have : s.state.started = false := hst
      rw [hs] at this
      exact Bool.noConfusion this
    · rw [e] at hw
      refine ⟨by rw [hw]; exact hgrid, fun _ => by rw [hw]; rfl, hgo, fun hpw => ?_⟩
      rw [hw] at hpw
      have : s.state.paused = true := hpw
      rw [hp] at this
      exact Bool.noConfusion this
  · refine ⟨by rw [hw]; exact hgrid, fun hst => ?_, hgo, fun _ => by rw [hw]; exact hr.1⟩
    rw [hw] at hst
    have : s.state.started = false := hst
    rw [hr.1] at this
    exact Bool.noConfusion this
  · obtain ⟨hg, _, _, _, _, _, hst, _⟩ := hres
    have hst1 : w.state.started = true := by rw [hst]; exact hr.1
    refine ⟨by rw [hg]; exact gridOK_kill _ r c hgrid, fun hst0 => ?_, hgo, fun _ => hst1⟩
    rw [hst1] at hst0
    exact Bool.noConfusion hst0

theorem inv_keydown (m : MathEnv α) (canvas : Canvas α) (key code : String) (u : α)
    (s : World α) (hi : Inv canvas s) : Inv canvas (keydown m canvas key code u s) := by
  have hgo := keydown_gameOverPaused m canvas key code u s hi.2.2.1
  obtain ⟨hgrid, hdock, _, hps⟩ := hi
  rcases keydown_cases m canvas key code u s with e | ⟨_, hst, e⟩ | ⟨_, hst, e⟩ | ⟨_, _, s2, _, e⟩
  · rw [e] at hgo ⊢
    exact ⟨hgrid, hdock, hgo, hps⟩
  · rw [e] at hgo ⊢
    exact ⟨hgrid, fun h => Bool.noConfusion h, hgo, fun _ => rfl⟩
  · rw [e] at hgo ⊢
    refine ⟨hgrid, fun h => ?_, hgo, fun _ => hst⟩
    have : s.state.started = false := h
    rw [hst] at this
    exact Bool.noConfusion this
  · rw [e]
    exact inv_fullReset canvas s2

theorem inv_keyup (canvas : Canvas α) (key : String) (s : World α) (hi : Inv canvas s) :
    Inv canvas (keyup key s) := hi

theorem inv_step (m : MathEnv α) (canvas : Canvas α) (e : Event α) (s w : World α)
    (hi : Inv canvas s) (h : step m canvas e s = some w) : Inv canvas w := by
  cases e with
  | tick =>
    simp only [step, loop] at h
    cases hp : s.state.paused with
    | true =>
      simp only [hp, Bool.not_true, Bool.false_eq_true, if_false, Option.some.injEq] at h
      rw [← h]; exact hi
    | false =>
      simp only [hp, Bool.not_false, if_true] at h
      exact inv_update canvas s w hi hp h
  | keydown key code u =>
    simp only [step, Option.some.injEq] at h
    rw [← h]; exact inv_keydown m canvas key code u s hi
  | keyup key =>
    simp only [step, Option.some.injEq] at h
    rw [← h]; exact inv_keyup canvas key s hi

/-- A ball wholly below the lowest row of bricks overlaps no brick. -/
theorem no_overlap_below (s : World α) (h : 256 < s.ball.y - s.ball.r) (r c : Nat) :
    ¬ Overlapped s r c := by
  rintro ⟨hr, _, _, hov⟩
  have hr6 : (r : α) ≤ 6 := by
    have : r ≤ 6 := by have : r < 7 := hr; omega
    exact_mod_cast this
  have hy : (263 : α) < s.ball.y := by
    have : s.ball.r = 7 := rfl
    rw [this] at h
    linarith
  simp only [brickOverlap, circleRectCollision, clamp, bricks.top, bricks.h, bricks.pad,
    bricks.left, bricks.w, Ball.r, decide_eq_true_eq] at hov
  have hb : (70 : α) + (r : α) * (18 + 10) + 18 < s.ball.y := by linarith
  have hmin : min ((70 : α) + (r : α) * (18 + 10) + 18) s.ball.y
      = 70 + (r : α) * (18 + 10) + 18 := min_eq_left (le_of_lt hb)
  have hmax : max ((70 : α) + (r : α) * (18 + 10))
      (70 + (r : α) * (18 + 10) + 18) = 70 + (r : α) * (18 + 10) + 18 :=
    max_eq_right (by linarith)
  rw [hmin, hmax] at hov
  have hd : (7 : α) < s.ball.y - (70 + (r : α) * (18 + 10) + 18) := by linarith
  nlinarith [mul_self_nonneg (s.ball.x - max ((22 : α) + (c : α) * (48 + 10))
    (min (22 + (c : α) * (48 + 10) + 48) s.ball.x))]

theorem updateFast_eq (canvas : Canvas α) (s : World α) (h : GridOK s.grid) :
    updateFast canvas s = update canvas s := by
  unfold updateFast
  split
  · next hb =>
    rw [update_scan canvas s ⟨hb.1, hb.2.1⟩]
    rcases brickCollisions_spec (beforeScan canvas s) h with ⟨h1, _⟩ | ⟨r, c, _, hf, _⟩
    · exact h1.symm
    · exact absurd hf.1 (no_overlap_below _ hb.2.2 r c)
  · rfl

theorem runFast_eq (m : MathEnv α) (canvas : Canvas α) :
    ∀ (es : List (Event α)) (s : World α), Inv canvas s →
      runFast m canvas es s = run m canvas es s := by
  intro es
  induction es with
  | nil => intro s _; rfl
  | cons e es ih =>
    intro s hi
    have hstep : ∀ w, step m canvas e s = some w → runFast m canvas es w = run m canvas es w :=
      fun w hw => ih w (inv_step m canvas e s w hi hw)
    cases e with
    | tick =>
      have e1 : (if !s.state.paused then updateFast canvas s else some s)
          = step m canvas Event.tick s := by
        simp only [step, loop, updateFast_eq canvas s hi.1]
      simp only [runFast, run, e1]
      cases hq : step m canvas Event.tick s with
      | none => rfl
      | some w => exact hstep w hq
    | keydown key code u =>
      simp only [runFast, run]
      cases hq : step m canvas (Event.keydown key code u) s with
      | none => rfl
      | some w => exact hstep w hq
    | keyup key =>
      simp only [runFast, run]
      cases hq : step m canvas (Event.keyup key) s with
      | none => rfl
      | some w => exact hstep w hq

/-- Every world the script can be in satisfies the invariant. -/
theorem reachable_inv (m : MathEnv α) (canvas : Canvas α) (s : World α)
    (h : Reachable m canvas s) : Inv canvas s := by
  induction h with
  | init => exact inv_initial canvas
  | step s w e _ hstep ih => exact inv_step m canvas e s w ih hstep

/-- A run from a reachable world ends in a reachable world. -/
theorem reachable_run (m : MathEnv α) (canvas : Canvas α) :
    ∀ (es : List (Event α)) (s w : World α), Reachable m canvas s →
      run m canvas es s = some w → Reachable m canvas w := by
  intro es
  induction es with
  | nil =>
    intro s w hs h
    simp only [run, Option.some.injEq] at h
    rw [← h]; exact hs
  | cons e es ih =>
    intro s w hs h
    simp only [run] at h
    cases hq : step m canvas e s with
    | none => simp [hq] at h
    | some s1 =>
      simp only [hq] at h
      exact ih s1 w (Reachable.step s s1 e hs hq) h

/-- A shortcut run from the initial world ends in a reachable world. -/
theorem reachable_runFast (m : MathEnv α) (canvas : Canvas α) (es : List (Event α))
    (w : World α) (h : runFast m canvas es (initial canvas) = some w) :
    Reachable m canvas w := by
  rw [runFast_eq m canvas es _ (inv_initial canvas)] at h
  exact reachable_run m canvas es _ w Reachable.init h

set_option maxRecDepth 100000 in
/-- The play `lostRun` ends in `lostWorld`. -/
theorem lostRun_ends : runFast mathQ cvQ lostRun (initial cvQ) = some lostWorld := by
  decide!

/-- The lost game `lostWorld` is a world the script can be in. -/
theorem lostWorld_reachable : Reachable mathQ cvQ lostWorld :=
  reachable_runFast mathQ cvQ lostRun lostWorld lostRun_ends

theorem wallCollisions_none (canvas : Canvas α) (b : Ball α)
    (hl : 0 < b.x - b.r) (hr : b.x + b.r < canvas.width) (hc : 0 < b.y - b.r) :
    wallCollisions canvas b = b := by
  simp only [wallCollisions, not_le.mpr hl, ge_iff_le, not_le.mpr hr, not_le.mpr hc, if_false]

theorem paddleCollision_none (canvas : Canvas α) (s : World α) (h : ¬ PaddleHit canvas s) :
    (beforeScan canvas s).ball = (afterWalls canvas s).ball := by
  have e : (beforeScan canvas s).ball =
      paddleCollision canvas (afterWalls canvas s).paddle (afterWalls canvas s).ball := rfl
  rw [e]
  exact if_neg h

end RunLemmas

/-! ## Lemmas on `clamp` and on counting bricks -/

section CountLemmas

variable {α : Type} [LinearOrderedField α]

theorem clamp_of_mem (v lo hi : α) (h1 : lo ≤ v) (h2 : v ≤ hi) : clamp v lo hi = v := by
  unfold clamp
  rw [min_eq_right h2, max_eq_right h1]

theorem clamp_of_lt (v lo hi : α) (h : lo ≤ hi) (h1 : v < lo) : clamp v lo hi = lo := by
  unfold clamp
  rw [min_eq_right (le_trans (le_of_lt h1) h), max_eq_left (le_of_lt h1)]

theorem clamp_of_gt (v lo hi : α) (h : lo ≤ hi) (h1 : hi < v) : clamp v lo hi = hi := by
  unfold clamp
  rw [min_eq_left (le_of_lt h1), max_eq_right h]

/-- The clamped coordinate is the point of `[lo, hi]` nearest to `c`. -/
theorem clamp_nearest (c lo hi p : α) (h1 : lo ≤ p) (h2 : p ≤ hi) :
    (c - clamp c lo hi) * (c - clamp c lo hi) ≤ (c - p) * (c - p) := by
  have h : lo ≤ hi := le_trans h1 h2
  rcases lt_or_le c lo with hc | hc
  · rw [clamp_of_lt c lo hi h hc]
    nlinarith
  · rcases lt_or_le hi c with hc2 | hc2
    · rw [clamp_of_gt c lo hi h hc2]
      nlinarith
    · rw [clamp_of_mem c lo hi hc hc2]
      nlinarith [mul_self_nonneg (c - p)]

theorem countCols_spec (grid : List (List Brick)) (r : Nat) :
    ∀ n c count k, countCols grid r c n count = some k →
      count ≤ k ∧ (k = count ↔ ∀ c1, c ≤ c1 → c1 < c + n → aliveAt grid r c1 = false) := by
  intro n
  induction n with
  | zero =>
    intro c count k h
    simp only [countCols, Option.some.injEq] at h
    subst h
    exact ⟨le_refl _, fun _ => fun c1 h1 h2 => by omega, fun _ => rfl⟩
  | succ n ih =>
    intro c count k h
    unfold countCols at h
    cases hb : brickAt grid r c with
    | none => simp [hb] at h
    | some b =>
      simp only [hb] at h
      have hal : aliveAt grid r c = b.alive := by simp [aliveAt, hb]
      obtain ⟨h1, h2⟩ := ih (c + 1) _ k h
      cases ha : b.alive with
      | true =>
        simp only [ha, if_true] at h1 h2
        refine ⟨by omega, fun hk => by omega, fun hall => ?_⟩
        have := hall c (le_refl c) (by omega)
        rw [hal, ha] at this
        exact Bool.noConfusion this
      | false =>
        simp only [ha, Bool.false_eq_true, if_false] at h1 h2
        refine ⟨h1, fun hk c1 hc1 hc2 => ?_, fun hall => ?_⟩
        · by_cases hcc : c1 = c
          · subst hcc; rw [hal, ha]
          · exact h2.mp hk c1 (by omega) (by omega)
        · exact h2.mpr (fun c1 hc1 hc2 => hall c1 (by omega) (by omega))

theorem countRows_spec (grid : List (List Brick)) :
    ∀ n r count k, countRows grid r n count = some k →
      count ≤ k ∧ (k = count ↔
        ∀ r1, r ≤ r1 → r1 < r + n → ∀ c1, c1 < bricks.cols → aliveAt grid r1 c1 = false) := by
  intro n
  induction n with
  | zero =>
    intro r count k h
    simp only [countRows, Option.some.injEq] at h
    subst h
    exact ⟨le_refl _, fun _ => fun r1 h1 h2 => by omega, fun _ => rfl⟩
  | succ n ih =>
    intro r count k h
    unfold countRows at h
    cases hq : countCols grid r 0 bricks.cols count with
    | none => simp [hq] at h
    | some k1 =>
      simp only [hq] at h
      obtain ⟨g1, g2⟩ := countCols_spec grid r _ _ _ _ hq
      obtain ⟨h1, h2⟩ := ih (r + 1) k1 k h
      refine ⟨le_trans g1 h1, fun hk r1 hr1 hr2 c1 hc1 => ?_, fun hall => ?_⟩
      · have hk1 : k1 = count := by omega
        by_cases hrr : r1 = r
        · subst hrr
          exact g2.mp hk1 c1 (Nat.zero_le _) (by omega)
        · exact h2.mp (by omega) r1 (by omega) (by omega) c1 hc1
      · have hk1 : k1 = count :=
          g2.mpr (fun c1 _ hc1 => hall r (le_refl r) (by omega) c1 (by omega))
        rw [← hk1]
        exact h2.mpr (fun r1 hr1 hr2 c1 hc1 => hall r1 (by omega) (by omega) c1 hc1)

/-- `remainingBricks()` is 0 exactly when no brick of the scanned area is alive. -/
theorem remainingBricks_zero_iff (grid : List (List Brick)) (k : Nat)
    (h : remainingBricks grid = some k) :
    k = 0 ↔ ∀ r, r < bricks.rows → ∀ c, c < bricks.cols → aliveAt grid r c = false := by
  obtain ⟨_, h2⟩ := countRows_spec grid _ _ _ _ h
  constructor
  · intro hk r hr c hc
    exact h2.mp hk r (Nat.zero_le _) (by omega) c hc
  · intro hall
    exact h2.mpr (fun r1 _ hr1 c1 hc1 => hall r1 (by omega) c1 hc1)

theorem deadInRow_kill : ∀ (row : List Brick) (c : Nat), row[c]? = some { alive := true } →
    deadInRow (row.modify (fun _ => { alive := false }) c) = deadInRow row + 1 := by
  intro row
  induction row with
  | nil => intro c h; simp at h
  | cons b t ih =>
    intro c h
    cases c with
    | zero =>
      simp only [List.getElem?_cons_zero, Option.some.injEq] at h
      subst h
      simp [deadInRow, List.countP_cons]
    | succ c =>
      simp only [List.getElem?_cons_succ] at h
      have := ih c h
      simp only [deadInRow, List.modify_succ_cons, List.countP_cons] at this ⊢
      omega

theorem deadBricks_kill : ∀ (grid : List (List Brick)) (r c : Nat),
    brickAt grid r c = some { alive := true } →
    deadBricks (grid.modify (fun row => row.modify (fun _ => { alive := false }) c) r) =
      deadBricks grid + 1 := by
  intro grid
  induction grid with
  | nil => intro r c h; simp [brickAt] at h
  | cons row t ih =>
    intro r c h
    cases r with
    | zero =>
      have h1 : row[c]? = some { alive := true } := by simpa [brickAt] using h
      simp only [deadBricks, List.modify_zero_cons, List.map_cons, List.sum_cons,
        deadInRow_kill row c h1]
      omega
    | succ r =>
      have h1 : brickAt t r c = some { alive := true } := by simpa [brickAt] using h
      have := ih r c h1
      simp only [deadBricks, List.modify_succ_cons, List.map_cons, List.sum_cons] at this ⊢
      omega

theorem gridExact_kill : ∀ (grid : List (List Brick)) (r c : Nat),
    (grid.modify (fun row => row.modify (fun _ => { alive := false }) c) r).map List.length =
      grid.map List.length := by
  intro grid
  induction grid with
  | nil => intro r c; simp
  | cons row t ih =>
    intro r c
    cases r with
    | zero => simp
    | succ r => simp [ih r c]

theorem deadBricks_le_cells : ∀ grid : List (List Brick),
    deadBricks grid ≤ (grid.map List.length).sum := by
  intro grid
  induction grid with
  | nil => simp [deadBricks]
  | cons row t ih =>
    have h1 : deadInRow row ≤ row.length := List.countP_le_length _
    simp only [deadBricks, List.map_cons, List.sum_cons] at ih ⊢
    omega

theorem deadBricks_le (grid : List (List Brick)) (h : GridExact grid) : deadBricks grid ≤ 56 := by
  have h1 := deadBricks_le_cells grid
  rw [h] at h1
  exact h1

end CountLemmas

/-! ## The tally invariant -/

section TallyLemmas

variable {α : Type} [LinearOrderedField α]

theorem tally_congr {β : Type} (s w : World β) (hg : w.grid = s.grid)
    (hl : w.state.lives = s.state.lives) (ho : w.state.gameOver = s.state.gameOver)
    (hsc : w.state.score = s.state.score) (h : Tally s) : Tally w := by
  unfold Tally at h ⊢
  rw [hg, hl, ho, hsc]
  exact h

theorem tally_fullReset (canvas : Canvas α) (s : World α) : Tally (fullReset canvas s) := by
  have hg : (fullReset canvas s).grid = resetBricks := rfl
  have hl : (fullReset canvas s).state.lives = 3 := rfl
  have hsc : (fullReset canvas s).state.score = 0 := rfl
  have hgo : (fullReset canvas s).state.gameOver = false := rfl
  unfold Tally
  rw [hg, hl, hsc, hgo]
  refine ⟨by decide, by decide, by decide, by decide, 56, by decide, ?_, ?_⟩
  · constructor
    · intro h; exact Bool.noConfusion h
    · intro h
      rcases h with h | h
      · exact absurd h (by decide)
      · exact absurd h (by decide)
  · rintro ⟨_, h⟩
    exact absurd h (by decide)

theorem tally_initial (canvas : Canvas α) : Tally (initial canvas) :=
  tally_fullReset canvas (initial canvas)

/-- The tally survives the `update` the loop runs. -/
theorem tally_update (canvas : Canvas α) (s w : World α) (hi : Inv canvas s) (ht : Tally s)
    (hp : s.state.paused = false) (h : update canvas s = some w) : Tally w := by
  have hgo : s.state.gameOver = false := by
    cases hq : s.state.gameOver with
    | false => rfl
    | true =>
      have := hi.2.2.1 hq
      rw [hp] at this
      exact Bool.noConfusion this
  obtain ⟨hex, hl0, hl3, hsc, k, hk, hiff, hboth⟩ := ht
  have hlives : s.state.lives ≠ 0 := by
    intro h0
    have := hiff.mpr (Or.inl h0)
    rw [hgo] at this
    exact Bool.noConfusion this
  have hk0 : k ≠ 0 := by
    intro h0
    have := hiff.mpr (Or.inr h0)
    rw [hgo] at this
    exact Bool.noConfusion this
  have ht : Tally s := ⟨hex, hl0, hl3, hsc, k, hk, hiff, hboth⟩
  rcases update_cases canvas s hi.1 with
    ⟨_, hu⟩ | ⟨_, _, hu⟩ | ⟨_, ⟨hu, _⟩ | ⟨r, c, w1, hf, hres, hu⟩⟩
  · rw [hu] at h
    rw [← Option.some.inj h]
    exact tally_congr s _ rfl rfl rfl rfl ht
  · rw [hu] at h
    rw [← Option.some.inj h]
    rcases loseLife_cases canvas (afterWalls canvas s) with ⟨hle, e⟩ | ⟨hgt, e⟩
    · rw [e]
      have hle1 : s.state.lives - 1 ≤ 0 := hle
      have hz : s.state.lives - 1 = 0 := by omega
      refine ⟨hex, ?_, ?_, hsc, k, hk, ?_, ?_⟩
      · show 0 ≤ s.state.lives - 1
        omega
      · show s.state.lives - 1 ≤ 3
        omega
      · exact ⟨fun _ => Or.inl hz, fun _ => rfl⟩
      · rintro ⟨_, h0⟩
        exact hk0 h0
    · rw [e]
      have hgt1 : ¬ s.state.lives - 1 ≤ 0 := hgt
      refine ⟨hex, ?_, ?_, hsc, k, hk, ?_, ?_⟩
      · show 0 ≤ s.state.lives - 1
        omega
      · show s.state.lives - 1 ≤ 3
        omega
      · constructor
        · intro hg1
          have hg2 : s.state.gameOver = true := hg1
          rw [hgo] at hg2
          exact Bool.noConfusion hg2
        · intro hor
          rcases hor with h0 | h0
          · have h1 : s.state.lives - 1 = 0 := h0
            omega
          · exact absurd h0 hk0
      · rintro ⟨_, h0⟩
        exact hk0 h0
  · rw [hu] at h
    rw [← Option.some.inj h]
    exact tally_congr s _ rfl rfl rfl rfl ht
  · rw [hu] at h
    rw [← Option.some.inj h]
    obtain ⟨hgrid, _, _, _, hscore, hliv, _, k1, hk1, hz, hnz⟩ := hres
    have halive : brickAt s.grid r c = some { alive := true } := by
      have ha : aliveAt s.grid r c = true := hf.1.2.2.1
      unfold aliveAt at ha
      cases hb : brickAt s.grid r c with
      | none => simp [hb] at ha
      | some b =>
        simp only [hb] at ha
        cases b with
        | mk a => simp only at ha; rw [ha]
    have hgrid1 : w1.grid =
        s.grid.modify (fun row => row.modify (fun _ => { alive := false }) c) r := hgrid
    have hscore1 : w1.state.score = s.state.score + 10 := hscore
    have hliv1 : w1.state.lives = s.state.lives := hliv
    refine ⟨?_, by rw [hliv1]; exact hl0, by rw [hliv1]; exact hl3, ?_, k1, hk1, ?_, ?_⟩
    · unfold GridExact
      rw [hgrid1, gridExact_kill]
      exact hex
    · rw [hscore1, hgrid1, deadBricks_kill s.grid r c halive, hsc]
      push_cast
      ring
    · rw [hliv1]
      constructor
      · intro hg1
        by_cases hk10 : k1 = 0
        · exact Or.inr hk10
        · have hg2 : w1.state.gameOver = s.state.gameOver := (hnz hk10).1
          rw [hg2, hgo] at hg1
          exact Bool.noConfusion hg1
      · intro hor
        rcases hor with h0 | h0
        · exact absurd h0 hlives
        · exact (hz h0).1
    · rw [hliv1]
      rintro ⟨h0, _⟩
      exact hlives h0

theorem tally_keydown (m : MathEnv α) (canvas : Canvas α) (key code : String) (u : α)
    (s : World α) (ht : Tally s) : Tally (keydown m canvas key code u s) := by
  rcases keydown_cases m canvas key code u s with e | ⟨_, _, e⟩ | ⟨_, _, e⟩ | ⟨_, _, s2, _, e⟩
  · rw [e]; exact tally_congr s _ rfl rfl rfl rfl ht
  · rw [e]; exact tally_congr s _ rfl rfl rfl rfl ht
  · rw [e]; exact tally_congr s _ rfl rfl rfl rfl ht
  · rw [e]; exact tally_fullReset canvas s2

theorem tally_step (m : MathEnv α) (canvas : Canvas α) (e : Event α) (s w : World α)
    (hi : Inv canvas s) (ht : Tally s) (h : step m canvas e s = some w) : Tally w := by
  cases e with
  | tick =>
    simp only [step, loop] at h
    cases hp : s.state.paused with
    | true =>
      simp only [hp, Bool.not_true, Bool.false_eq_true, if_false, Option.some.injEq] at h
      rw [← h]; exact ht
    | false =>
      simp only [hp, Bool.not_false, if_true] at h
      exact tally_update canvas s w hi ht hp h
  | keydown key code u =>
    simp only [step, Option.some.injEq] at h
    rw [← h]; exact tally_keydown m canvas key code u s ht
  | keyup key =>
    simp only [step, Option.some.injEq] at h
    rw [← h]; exact tally_congr s _ rfl rfl rfl rfl ht

/-- Every world the script can be in satisfies the tally. -/
theorem reachable_tally (m : MathEnv α) (canvas : Canvas α) (s : World α)
    (h : Reachable m canvas s) : Tally s := by
  induction h with
  | init => exact tally_initial canvas
  | step s w e hs hstep ih =>
    exact tally_step m canvas e s w (reachable_inv m canvas s hs) ih hstep

end TallyLemmas

/-! ## Lemmas on the paddle collision -/

section PaddleLemmas

variable {α : Type} [LinearOrderedField α]

theorem paddleCollision_hit (canvas : Canvas α) (s : World α) (h : PaddleHit canvas s) :
    (beforeScan canvas s).ball =
      { x := (afterWalls canvas s).ball.x
        y := (afterWalls canvas s).paddle.y canvas - (afterWalls canvas s).ball.r - 1
        vx := clamp (hitPos (afterWalls canvas s).paddle (afterWalls canvas s).ball *
                (afterWalls canvas s).ball.speed * 1.1)
              (-((afterWalls canvas s).ball.speed * 1.4)) ((afterWalls canvas s).ball.speed * 1.4)
        vy := -|(afterWalls canvas s).ball.vy| } := by
  have e : (beforeScan canvas s).ball =
      paddleCollision canvas (afterWalls canvas s).paddle (afterWalls canvas s).ball := rfl
  rw [e]
  exact if_pos h

theorem wallCollisions_abs_vy (canvas : Canvas α) (b : Ball α) :
    |(wallCollisions canvas b).vy| = |b.vy| := by
  unfold wallCollisions
  simp only
  split_ifs <;> simp

theorem wallCollisions_inArena (canvas : Canvas α) (b : Ball α) (hW : 14 ≤ canvas.width) :
    BallInArena canvas (wallCollisions canvas b) := by
  unfold BallInArena wallCollisions
  simp only [Ball.r]
  split_ifs <;> refine ⟨?_, ?_, ?_⟩ <;> (try dsimp only) <;> linarith

/-- The paddle collision test bounds the hit offset. -/
theorem hitPos_bound (canvas : Canvas α) (s : World α) (h : PaddleHit canvas s) :
    |hitPos (afterWalls canvas s).paddle (afterWalls canvas s).ball| ≤ 62 / 55 := by
  obtain ⟨_, hc⟩ := h
  simp only [circleRectCollision, decide_eq_true_eq, Ball.r, Paddle.w] at hc
  have hb := clamp_bounds (afterWalls canvas s).ball.x (afterWalls canvas s).paddle.x
    ((afterWalls canvas s).paddle.x + 110) (by linarith)
  have hd : ∀ d e : α, d * d + e * e ≤ 7 * 7 → -7 ≤ d ∧ d ≤ 7 := by
    intro d e hde
    have hsq : d ^ 2 ≤ (7 : α) ^ 2 := by nlinarith [mul_self_nonneg e]
    exact abs_le_of_sq_le_sq' hsq (by norm_num)
  have habs := hd _ _ hc
  unfold hitPos
  simp only [Paddle.w]
  rw [abs_le]
  constructor
  · rw [le_div_iff₀ (by norm_num)]
    linarith [habs.1, habs.2, hb.1, hb.2]
  · rw [div_le_iff₀ (by norm_num)]
    linarith [habs.1, habs.2, hb.1, hb.2]

/-- After a paddle hit the clamp of `vx` is the identity. -/
theorem hit_vx_unclamped (canvas : Canvas α) (s : World α) (h : PaddleHit canvas s) :
    |hitPos (afterWalls canvas s).paddle (afterWalls canvas s).ball *
        (afterWalls canvas s).ball.speed * 1.1| ≤ 6.2 ∧
    (beforeScan canvas s).ball.vx =
      hitPos (afterWalls canvas s).paddle (afterWalls canvas s).ball *
        (afterWalls canvas s).ball.speed * 1.1 := by
  have hb := abs_le.mp (hitPos_bound canvas s h)
  have hsp : (afterWalls canvas s).ball.speed = 5 := rfl
  have e11 : (1.1 : α) = 11 / 10 := by norm_num
  have e14 : (1.4 : α) = 14 / 10 := by norm_num
  have e62 : (6.2 : α) = 62 / 10 := by norm_num
  have hlo : -(62 / 10 : α) ≤
      hitPos (afterWalls canvas s).paddle (afterWalls canvas s).ball * 5 * (11 / 10) := by
    linarith [hb.1]
  have hhi : hitPos (afterWalls canvas s).paddle (afterWalls canvas s).ball * 5 * (11 / 10)
      ≤ (62 / 10 : α) := by
    linarith [hb.2]
  refine ⟨?_, ?_⟩
  · rw [hsp, e11, e62, abs_le]
    exact ⟨hlo, hhi⟩
  · rw [paddleCollision_hit canvas s h]
    show clamp _ _ _ = _
    rw [hsp, e11, e14]
    exact clamp_of_mem _ _ _ (by linarith) (by linarith)

end PaddleLemmas

/-! ## Lemmas on the rounding of doubles -/

section RoundingLemmas

/-- The model of rounding evaluated: `0.1`, `0.1 + 0.2` and `1.1` as doubles,
a value that is a double, an absorbed `2 ^ (-60)`, ties to even above
`2 ^ 53`, and the smallest steps. -/
theorem roundDouble_examples :
    roundDouble (1 / 10) = 3602879701896397 / 2 ^ 55 ∧
    roundDouble (roundDouble (1 / 10) + roundDouble (2 / 10)) = 1351079888211149 / 2 ^ 52 ∧
    roundDouble (11 / 10) = 2476979795053773 / 2 ^ 51 ∧
    roundDouble (70 - 1 / 2 ^ 30) = 70 - 1 / 2 ^ 30 ∧
    roundDouble (49 + 1 / 2 ^ 60) = 49 ∧
    roundDouble (2 ^ 53 + 1) = 2 ^ 53 ∧
    roundDouble (2 ^ 53 + 3) = 2 ^ 53 + 4 ∧
    roundDouble (-(2 ^ 53 + 3)) = -(2 ^ 53 + 4) ∧
    roundDouble (1 / 2 ^ 1075) = 0 ∧
    roundDouble (3 / 2 ^ 1075) = 2 / 2 ^ 1074 := by
  decide!

theorem bitLength_spec : ∀ fuel n : Nat, n ≤ fuel → 0 < n →
    2 ^ (bitLength fuel n - 1) ≤ n ∧ n < 2 ^ bitLength fuel n ∧ 0 < bitLength fuel n := by
  intro fuel
  induction fuel with
  | zero => intro n h1 h2; omega
  | succ fuel ih =>
    intro n h1 h2
    have hn : n ≠ 0 := by omega
    simp only [bitLength, hn, if_false]
    by_cases h0 : n / 2 = 0
    · have h1n : n = 1 := by omega
      subst h1n
      cases fuel <;> simp [bitLength]
    · obtain ⟨g1, g2, g3⟩ := ih (n / 2) (by omega) (by omega)
      have e : bitLength fuel (n / 2) + 1 - 1 = (bitLength fuel (n / 2) - 1) + 1 := by omega
      refine ⟨?_, ?_, by omega⟩
      · rw [e, pow_succ]
        omega
      · rw [pow_succ]
        omega

theorem roundEven_intCast (m : ℤ) : roundEven (m : ℚ) = m := by
  simp [roundEven]

/-- Every integer below `2 ^ 53` in magnitude is a double. -/
theorem roundDouble_intCast (n : ℤ) (h : |n| < 2 ^ 53) : roundDouble (n : ℚ) = n := by
  by_cases h0 : n = 0
  · subst h0; simp [roundDouble]
  have hx : (n : ℚ) ≠ 0 := by exact_mod_cast h0
  have ha : 0 < n.natAbs := Int.natAbs_pos.mpr h0
  have ha53 : n.natAbs < 2 ^ 53 := by
    have : (n.natAbs : ℤ) < 2 ^ 53 := by rw [Int.natCast_natAbs]; exact h
    exact_mod_cast this
  obtain ⟨g1, g2, g3⟩ := bitLength_spec n.natAbs n.natAbs (le_refl _) ha
  have hL : bitLength n.natAbs n.natAbs ≤ 53 := by
    by_contra hc
    have h54 : 54 ≤ bitLength n.natAbs n.natAbs := by omega
    have : 2 ^ 53 ≤ 2 ^ (bitLength n.natAbs n.natAbs - 1) :=
      Nat.pow_le_pow_right (by norm_num) (by omega)
    omega
  have hb1 : bitLength 1 1 = 1 := by decide
  have habs : |(n : ℚ)| = (n.natAbs : ℚ) := by
    rw [← Int.cast_abs, Int.abs_eq_natAbs]
    exact Int.cast_natCast _
  have hlog : ilog2 (n : ℚ) = (bitLength n.natAbs n.natAbs : ℤ) - 1 := by
    unfold ilog2
    simp only [Rat.num_intCast, Rat.den_intCast, hb1]
    rw [if_pos]
    · push_cast; ring
    · rw [habs]
      have e : ((bitLength n.natAbs n.natAbs : ℤ) - ((1 : ℕ) : ℤ)) =
          ((bitLength n.natAbs n.natAbs - 1 : ℕ) : ℤ) := by
        push_cast [Nat.cast_sub g3]; ring
      rw [e, zpow_natCast]
      exact_mod_cast g1
  obtain ⟨k, hk⟩ : ∃ k : ℕ, (bitLength n.natAbs n.natAbs : ℤ) - 1 - 52 = -(k : ℤ) :=
    ⟨53 - bitLength n.natAbs n.natAbs, by omega⟩
  have hmax : max (ilog2 (n : ℚ) - 52) (-1074) = -(k : ℤ) := by
    rw [hlog, hk]
    exact max_eq_left (by omega)
  unfold roundDouble
  rw [if_neg hx]
  simp only [hmax]
  have h2k : ((2 : ℚ) ^ k) ≠ 0 := pow_ne_zero _ (by norm_num)
  have e1 : (n : ℚ) / 2 ^ (-(k : ℤ)) = ((n * 2 ^ k : ℤ) : ℚ) := by
    rw [zpow_neg, zpow_natCast, div_inv_eq_mul]
    push_cast
    ring
  rw [e1, roundEven_intCast, zpow_neg, zpow_natCast]
  push_cast
  field_simp

/-- Integers up to `2 ^ 24` in magnitude are computed without rounding. -/
theorem exactTest_of_int (cx cy r rx ry rw rh : ℤ)
    (h1 : |cx| ≤ 2 ^ 24) (h2 : |cy| ≤ 2 ^ 24) (h3 : |r| ≤ 2 ^ 24) (h4 : |rx| ≤ 2 ^ 24)
    (h5 : |ry| ≤ 2 ^ 24) (h6 : 0 ≤ rw) (h7 : rw ≤ 2 ^ 24) (h8 : 0 ≤ rh) (h9 : rh ≤ 2 ^ 24) :
    ExactTest (cx : ℚ) cy r rx ry rw rh := by
  rw [abs_le] at h1 h2 h3 h4 h5
  have hcl : ∀ v lo hi : ℤ, clamp (v : ℚ) lo hi = ((max lo (min hi v) : ℤ) : ℚ) := by
    intro v lo hi
    unfold clamp
    push_cast
    rfl
  have hsum : ∀ a b : ℤ, (a : ℚ) + b = ((a + b : ℤ) : ℚ) := fun a b => by push_cast; rfl
  have hsub : ∀ a b : ℤ, (a : ℚ) - b = ((a - b : ℤ) : ℚ) := fun a b => by push_cast; rfl
  have hmul : ∀ a b : ℤ, (a : ℚ) * b = ((a * b : ℤ) : ℚ) := fun a b => by push_cast; rfl
  have hdx : ∀ v lo w : ℤ, |v| ≤ 2 ^ 24 → |lo| ≤ 2 ^ 24 → 0 ≤ w → w ≤ 2 ^ 24 →
      |v - max lo (min (lo + w) v)| ≤ 3 * 2 ^ 24 := by
    intro v lo w hv hlo hw0 hw1
    rw [abs_le] at hv hlo ⊢
    have q1 : lo ≤ max lo (min (lo + w) v) := le_max_left _ _
    have q2 : max lo (min (lo + w) v) ≤ lo + w := max_le (by omega) (min_le_left _ _)
    constructor <;> omega
  have hsq : ∀ d : ℤ, |d| ≤ 3 * 2 ^ 24 → d * d ≤ 9 * 2 ^ 48 ∧ 0 ≤ d * d := by
    intro d hd
    rw [abs_le] at hd
    exact ⟨by nlinarith, mul_self_nonneg d⟩
  have dx := hdx cx rx rw (abs_le.mpr h1) (abs_le.mpr h4) h6 h7
  have dy := hdx cy ry rh (abs_le.mpr h2) (abs_le.mpr h5) h8 h9
  have sx := hsq _ dx
  have sy := hsq _ dy
  unfold ExactTest
  simp only [hsum, hcl, hsub, hmul]
  refine ⟨?_, ?_, ?_, ?_, ?_, ?_, ?_, ?_⟩ <;> apply roundDouble_intCast <;> rw [abs_lt]
  · constructor <;> omega
  · constructor <;> omega
  · rw [abs_le] at dx; constructor <;> omega
  · rw [abs_le] at dy; constructor <;> omega
  · constructor <;> omega
  · constructor <;> omega
  · constructor <;> omega
  · constructor <;> nlinarith

/-- No binary fraction, hence no double, equals `17 / 18`. -/
theorem binary_fraction_ne (u : ℝ) (hd : ∃ k n : ℕ, u = (k : ℝ) / 2 ^ n) : u ≠ 17 / 18 := by
  obtain ⟨k, n, rfl⟩ := hd
  intro h
  have h2 : (2 : ℝ) ^ n ≠ 0 := pow_ne_zero _ (by norm_num)
  rw [div_eq_div_iff h2 (by norm_num)] at h
  have h3 : k * 18 = 17 * 2 ^ n := by exact_mod_cast h
  have h4 : 3 ∣ 17 * 2 ^ n := ⟨k * 6, by omega⟩
  rcases (Nat.Prime.dvd_mul Nat.prime_three).mp h4 with h5 | h5
  · omega
  · have := Nat.Prime.dvd_of_dvd_pow Nat.prime_three h5
    omega

end RoundingLemmas

/-! ## Properties of the simulation core -/

section Properties

variable {α : Type} [LinearOrderedField α]

/-- C1: one call of `update` changes the alive flag of at most one brick, and
only from alive to dead; when the step reaches the brick scan and the ball,
as resolved against walls and paddle, overlaps some alive brick, the brick
that dies is the first overlapped alive brick in row-major order and every
other cell keeps its brick. -/
theorem update_kills_first_overlapped_only (canvas : Canvas α) (s : World α)
    (h : GridOK s.grid) :
    ∃ w, update canvas s = some w ∧
      (∀ r c, brickAt w.grid r c = brickAt s.grid r c ∨
        (brickAt s.grid r c = some { alive := true } ∧
          brickAt w.grid r c = some { alive := false })) ∧
      (∀ r1 c1 r2 c2, brickAt w.grid r1 c1 ≠ brickAt s.grid r1 c1 →
        brickAt w.grid r2 c2 ≠ brickAt s.grid r2 c2 → r1 = r2 ∧ c1 = c2) ∧
      (ReachesScan canvas s → (∃ r c, Overlapped (beforeScan canvas s) r c) →
        ∃ r c, FirstOverlapped (beforeScan canvas s) r c ∧
          brickAt s.grid r c = some { alive := true } ∧
          brickAt w.grid r c = some { alive := false } ∧
          ∀ r1 c1, ¬ (r1 = r ∧ c1 = c) → brickAt w.grid r1 c1 = brickAt s.grid r1 c1) := by
  have same : ∀ w : World α, w.grid = s.grid →
      (∀ r c, brickAt w.grid r c = brickAt s.grid r c ∨
        (brickAt s.grid r c = some { alive := true } ∧
          brickAt w.grid r c = some { alive := false })) ∧
      (∀ r1 c1 r2 c2, brickAt w.grid r1 c1 ≠ brickAt s.grid r1 c1 →
        brickAt w.grid r2 c2 ≠ brickAt s.grid r2 c2 → r1 = r2 ∧ c1 = c2) := by
    intro w hw
    rw [hw]
    exact ⟨fun r c => Or.inl rfl, fun r1 c1 r2 c2 h1 => absurd rfl h1⟩
  rcases update_cases canvas s h with ⟨hs, hu⟩ | ⟨hs, hb, hu⟩ | ⟨hr, ⟨hu, hno⟩ | ⟨r, c, w, hf, hres, hu⟩⟩
  · obtain ⟨g1, g2⟩ := same (resetBallOnPaddle canvas (paddleMove canvas s)) rfl
    refine ⟨_, hu, g1, g2, fun hreach => ?_⟩
    rw [hreach.1] at hs
    exact Bool.noConfusion hs
  · obtain ⟨g1, g2⟩ := same (loseLife canvas (afterWalls canvas s)) (loseLife_grid canvas _)
    exact ⟨_, hu, g1, g2, fun hreach => absurd hb hreach.2⟩
  · obtain ⟨g1, g2⟩ := same (beforeScan canvas s) rfl
    refine ⟨_, hu, g1, g2, fun _ hex => ?_⟩
    obtain ⟨r, c, hov⟩ := hex
    exact absurd hov (hno r c)
  · have hgrid := hres.1
    rw [beforeScan_grid] at hgrid
    have halive : brickAt s.grid r c = some { alive := true } := by
      have ha := hf.1.2.2.1
      rw [beforeScan_grid] at ha
      unfold aliveAt at ha
      cases hb : brickAt s.grid r c with
      | none => simp [hb] at ha
      | some b =>
        simp only [hb] at ha
        cases b with
        | mk a => simp only at ha; rw [ha]
    have hat : ∀ r1 c1, brickAt w.grid r1 c1 =
        if r1 = r ∧ c1 = c then some { alive := false } else brickAt s.grid r1 c1 := by
      intro r1 c1
      rw [hgrid, brickAt_kill, halive]
      rfl
    have hother : ∀ r1 c1, ¬ (r1 = r ∧ c1 = c) → brickAt w.grid r1 c1 = brickAt s.grid r1 c1 := by
      intro r1 c1 hne
      rw [hat, if_neg hne]
    have hdead : brickAt w.grid r c = some { alive := false } := by
      rw [hat, if_pos ⟨rfl, rfl⟩]
    refine ⟨w, hu, fun r1 c1 => ?_, fun r1 c1 r2 c2 h1 h2 => ?_,
      fun _ _ => ⟨r, c, hf, halive, hdead, hother⟩⟩
    · by_cases hrc : r1 = r ∧ c1 = c
      · obtain ⟨rfl, rfl⟩ := hrc
        exact Or.inr ⟨halive, hdead⟩
      · exact Or.inl (hother r1 c1 hrc)
    · have e1 : r1 = r ∧ c1 = c := by
        by_contra hne
        exact h1 (hother r1 c1 hne)
      have e2 : r2 = r ∧ c2 = c := by
        by_contra hne
        exact h2 (hother r2 c2 hne)
      exact ⟨e1.1.trans e2.1.symm, e1.2.trans e2.2.symm⟩

/-- C1, evaluated on a ball that overlaps the adjacent bricks (1, 1) and
(1, 2) of the untouched grid. -/
theorem update_kills_first_overlapped_only_witness :
    GridOK twoBricksWorld.grid ∧
    ∃ w, update cvQ twoBricksWorld = some w ∧
      (∀ r c, brickAt w.grid r c = brickAt twoBricksWorld.grid r c ∨
        (brickAt twoBricksWorld.grid r c = some { alive := true } ∧
          brickAt w.grid r c = some { alive := false })) ∧
      (∀ r1 c1 r2 c2, brickAt w.grid r1 c1 ≠ brickAt twoBricksWorld.grid r1 c1 →
        brickAt w.grid r2 c2 ≠ brickAt twoBricksWorld.grid r2 c2 → r1 = r2 ∧ c1 = c2) ∧
      (ReachesScan cvQ twoBricksWorld →
        (∃ r c, Overlapped (beforeScan cvQ twoBricksWorld) r c) →
        ∃ r c, FirstOverlapped (beforeScan cvQ twoBricksWorld) r c ∧
          brickAt twoBricksWorld.grid r c = some { alive := true } ∧
          brickAt w.grid r c = some { alive := false } ∧
          ∀ r1 c1, ¬ (r1 = r ∧ c1 = c) →
            brickAt w.grid r1 c1 = brickAt twoBricksWorld.grid r1 c1) :=
  ⟨by decide, update_kills_first_overlapped_only cvQ twoBricksWorld (by decide)⟩

/-- C2: in flight, when the ball resolved against the walls has its top edge
below the floor, `update` takes exactly one life and leaves score and bricks
alone; on the last life the game is over and paused with the ball left where
it fell, otherwise the ball is docked on the paddle and waits for a launch. -/
theorem update_life_loss (canvas : Canvas α) (s : World α)
    (hs : s.state.started = true) (hg : s.state.gameOver = false)
    (hb : BelowFloor canvas s) :
    ∃ w, update canvas s = some w ∧
      w.state.lives = s.state.lives - 1 ∧
      w.state.score = s.state.score ∧
      w.grid = s.grid ∧
      (w.state.lives ≤ 0 →
        w.state.gameOver = true ∧ w.state.paused = true ∧ w.state.started = true ∧
          w.ball = (afterWalls canvas s).ball) ∧
      (¬ w.state.lives ≤ 0 →
        w.state.started = false ∧ w.state.gameOver = false ∧
          w.ball.x = w.paddle.x + w.paddle.w / 2 ∧
          w.ball.y = w.paddle.y canvas - w.ball.r - 1 ∧
          w.ball.vx = 0 ∧ w.ball.vy = 0) := by
  refine ⟨_, update_floor canvas s hs hb, ?_⟩
  have hst : (afterWalls canvas s).state = s.state := rfl
  by_cases hl : s.state.lives - 1 ≤ 0
  · have e : loseLife canvas (afterWalls canvas s) =
        { afterWalls canvas s with
          state := { s.state with lives := s.state.lives - 1, gameOver := true, paused := true } } := by
      simp only [loseLife, hst, hl, if_true]
    rw [e]
    refine ⟨rfl, rfl, rfl, fun _ => ⟨rfl, rfl, hs, rfl⟩, fun hn => absurd hl hn⟩
  · have e : loseLife canvas (afterWalls canvas s) =
        resetBallOnPaddle canvas { afterWalls canvas s with
          state := { s.state with lives := s.state.lives - 1 } } := by
      simp only [loseLife, hst, hl, if_false]
    rw [e]
    refine ⟨rfl, rfl, rfl, fun hn => absurd hn hl, fun _ => ⟨rfl, hg, rfl, rfl, rfl, rfl⟩⟩

/-- C2, evaluated on a ball that falls below the floor of the 480 x 640
canvas with three lives left. -/
theorem update_life_loss_witness :
    fallingWorld.state.started = true ∧ fallingWorld.state.gameOver = false ∧
    BelowFloor cvQ fallingWorld ∧
    ∃ w, update cvQ fallingWorld = some w ∧
      w.state.lives = fallingWorld.state.lives - 1 ∧
      w.state.score = fallingWorld.state.score ∧
      w.grid = fallingWorld.grid ∧
      (w.state.lives ≤ 0 →
        w.state.gameOver = true ∧ w.state.paused = true ∧ w.state.started = true ∧
          w.ball = (afterWalls cvQ fallingWorld).ball) ∧
      (¬ w.state.lives ≤ 0 →
        w.state.started = false ∧ w.state.gameOver = false ∧
          w.ball.x = w.paddle.x + w.paddle.w / 2 ∧
          w.ball.y = w.paddle.y cvQ - w.ball.r - 1 ∧
          w.ball.vx = 0 ∧ w.ball.vy = 0) :=
  ⟨rfl, rfl, by decide!,
    update_life_loss cvQ fallingWorld rfl rfl (by decide!)⟩

/-- C3: when a call of `update` destroys a brick, the game is over and paused
at the end of that call if no brick of the grid is then alive, and `gameOver`
and `paused` are as they were before the call if some brick is still alive;
`remainingBricks()` returns a count that is 0 exactly in the first case. -/
theorem update_win_check (canvas : Canvas α) (s w : World α)
    (hu : update canvas s = some w)
    (hd : ∃ r c, aliveAt s.grid r c = true ∧ aliveAt w.grid r c = false) :
    ((∀ r, r < bricks.rows → ∀ c, c < bricks.cols → aliveAt w.grid r c = false) →
      w.state.gameOver = true ∧ w.state.paused = true) ∧
    ((∃ r c, r < bricks.rows ∧ c < bricks.cols ∧ aliveAt w.grid r c = true) →
      w.state.gameOver = s.state.gameOver ∧ w.state.paused = s.state.paused) ∧
    ∃ k, remainingBricks w.grid = some k ∧
      (k = 0 ↔ ∀ r, r < bricks.rows → ∀ c, c < bricks.cols → aliveAt w.grid r c = false) ∧
      (k = 0 → w.state.gameOver = true ∧ w.state.paused = true) ∧
      (k ≠ 0 → w.state.gameOver = s.state.gameOver ∧ w.state.paused = s.state.paused) := by
  obtain ⟨r, c, ha, hdead⟩ := hd
  have hsame : w.grid = s.grid → False := by
    intro hg
    rw [hg, ha] at hdead
    exact Bool.noConfusion hdead
  rcases update_some canvas s w hu with ⟨_, hw⟩ | ⟨_, _, hw⟩ | ⟨_, hw | ⟨r0, c0, hres⟩⟩
  · exact (hsame (by rw [hw]; rfl)).elim
  · exact (hsame (by rw [hw]; exact loseLife_grid canvas _)).elim
  · exact (hsame (by rw [hw]; rfl)).elim
  · obtain ⟨_, _, _, _, _, _, _, k, hk, h0, h1⟩ := hres
    have hz := remainingBricks_zero_iff w.grid k hk
    refine ⟨fun hall => h0 (hz.mpr hall), fun hex => h1 (fun hk0 => ?_), k, hk, hz, h0, h1⟩
    obtain ⟨r1, c1, hr1, hc1, hal⟩ := hex
    have := hz.mp hk0 r1 hr1 c1 hc1
    rw [hal] at this
    exact Bool.noConfusion this

/-- C3, evaluated on the step that destroys the last alive brick. -/
theorem update_win_check_witness :
    update cvQ lastBrickWorld = some lastBrickDone ∧
    (∃ r c, aliveAt lastBrickWorld.grid r c = true ∧ aliveAt lastBrickDone.grid r c = false) ∧
    ((∀ r, r < bricks.rows → ∀ c, c < bricks.cols → aliveAt lastBrickDone.grid r c = false) →
      lastBrickDone.state.gameOver = true ∧ lastBrickDone.state.paused = true) ∧
    ((∃ r c, r < bricks.rows ∧ c < bricks.cols ∧ aliveAt lastBrickDone.grid r c = true) →
      lastBrickDone.state.gameOver = lastBrickWorld.state.gameOver ∧
        lastBrickDone.state.paused = lastBrickWorld.state.paused) ∧
    ∃ k, remainingBricks lastBrickDone.grid = some k ∧
      (k = 0 ↔ ∀ r, r < bricks.rows → ∀ c, c < bricks.cols →
        aliveAt lastBrickDone.grid r c = false) ∧
      (k = 0 → lastBrickDone.state.gameOver = true ∧ lastBrickDone.state.paused = true) ∧
      (k ≠ 0 → lastBrickDone.state.gameOver = lastBrickWorld.state.gameOver ∧
        lastBrickDone.state.paused = lastBrickWorld.state.paused) :=
  ⟨by decide!, ⟨1, 1, by decide⟩,
    update_win_check cvQ lastBrickWorld lastBrickDone (by decide!) ⟨1, 1, by decide⟩⟩

/-- Both cases of the win check evaluated.  On the untouched grid the step
that kills brick (1, 1) leaves 55 bricks alive, among them (1, 2), and the
game neither over nor paused; the step that kills the last alive brick leaves
none alive and the game over and paused. -/
theorem update_win_check_examples :
    (update cvQ twoBricksWorld).map (fun w =>
        (remainingBricks w.grid, aliveAt w.grid 1 1, aliveAt w.grid 1 2,
          w.state.gameOver, w.state.paused)) =
      some (some 55, false, true, false, false) ∧
    (update cvQ lastBrickWorld).map (fun w =>
        (remainingBricks w.grid, aliveAt w.grid 1 1, w.state.gameOver, w.state.paused)) =
      some (some 0, false, true, true) := by
  decide!

/-- C4: on an arena at least as wide as the paddle, whatever the paddle
position and the held keys before, `update` returns (on a well-formed grid)
with `0 ≤ paddle.x ≤ canvas.width - paddle.w`; hence the bound holds in every
world reached through ticks, key events and restarts. -/
theorem paddle_stays_in_arena (m : MathEnv α) (canvas : Canvas α)
    (hW : (initial canvas).paddle.w ≤ canvas.width) :
    (∀ s w : World α, update canvas s = some w → PaddleInArena canvas w) ∧
    (∀ s : World α, GridOK s.grid → ∃ w, update canvas s = some w ∧ PaddleInArena canvas w) ∧
    (∀ s : World α, Reachable m canvas s → PaddleInArena canvas s) := by
  have hW1 : (110 : α) ≤ canvas.width := hW
  refine ⟨fun s w h => update_inArena canvas s w hW1 h, fun s hg => ?_,
    fun s h => reachable_inArena m canvas hW1 s h⟩
  obtain ⟨w, hw⟩ := update_total canvas s hg
  exact ⟨w, hw, update_inArena canvas s w hW1 hw⟩

/-- C4, on the 480 x 640 canvas. -/
theorem paddle_stays_in_arena_witness :
    (initial cvQ).paddle.w ≤ cvQ.width ∧
    (∀ s w : World ℚ, update cvQ s = some w → PaddleInArena cvQ w) ∧
    (∀ s : World ℚ, GridOK s.grid → ∃ w, update cvQ s = some w ∧ PaddleInArena cvQ w) ∧
    (∀ s : World ℚ, Reachable mathQ cvQ s → PaddleInArena cvQ s) :=
  ⟨by decide!, paddle_stays_in_arena mathQ cvQ (by decide!)⟩

/-- C5: in every reachable world whose ball is not launched the ball is
docked: at `(paddle.x + paddle.w / 2, paddle.y - ball.r - 1)` with zero
velocity.  A tick in such a world moves the paddle, docks the ball on the
moved paddle and changes nothing else; so does `update` from any world whose
ball is not launched. -/
theorem docked_while_not_started (m : MathEnv α) (canvas : Canvas α) (s : World α)
    (hr : Reachable m canvas s) (hs : s.state.started = false) :
    Docked canvas s ∧
    (∃ w, loop canvas s = some w ∧ w.paddle = (paddleMove canvas s).paddle ∧
      Docked canvas w ∧ w.state = s.state ∧ w.grid = s.grid ∧ w.keys = s.keys) ∧
    (∀ t : World α, t.state.started = false →
      ∃ w, update canvas t = some w ∧ w.paddle = (paddleMove canvas t).paddle ∧
        Docked canvas w ∧ w.state = t.state ∧ w.grid = t.grid ∧ w.keys = t.keys) := by
  have hupd : ∀ t : World α, t.state.started = false →
      ∃ w, update canvas t = some w ∧ w.paddle = (paddleMove canvas t).paddle ∧
        Docked canvas w ∧ w.state = t.state ∧ w.grid = t.grid ∧ w.keys = t.keys := by
    intro t ht
    refine ⟨_, update_docked canvas t ht, rfl, rfl, ?_, rfl, rfl⟩
    show ({ t.state with started := false } : GameState) = t.state
    rw [← ht]
  obtain ⟨_, hdock, _, hps⟩ := reachable_inv m canvas s hr
  have hp : s.state.paused = false := by
    cases hq : s.state.paused with
    | false => rfl
    | true =>
      have := hps hq
      rw [hs] at this
      exact Bool.noConfusion this
  refine ⟨hdock hs, ?_, hupd⟩
  have hl : loop canvas s = update canvas s := by
    simp only [loop, hp, Bool.not_false, if_true]
  rw [hl]
  exact hupd s hs

/-- C5, at the initial world of the 480 x 640 canvas. -/
theorem docked_while_not_started_witness :
    Reachable mathQ cvQ (initial cvQ) ∧ (initial cvQ).state.started = false ∧
    Docked cvQ (initial cvQ) ∧
    (∃ w, loop cvQ (initial cvQ) = some w ∧
      w.paddle = (paddleMove cvQ (initial cvQ)).paddle ∧
      Docked cvQ w ∧ w.state = (initial cvQ).state ∧ w.grid = (initial cvQ).grid ∧
      w.keys = (initial cvQ).keys) ∧
    (∀ t : World ℚ, t.state.started = false →
      ∃ w, update cvQ t = some w ∧ w.paddle = (paddleMove cvQ t).paddle ∧
        Docked cvQ w ∧ w.state = t.state ∧ w.grid = t.grid ∧ w.keys = t.keys) :=
  ⟨Reachable.init, rfl, docked_while_not_started mathQ cvQ (initial cvQ) Reachable.init rfl⟩

/-- C6: from every world `fullReset` yields score 0, three lives, the flags
`paused`, `started` and `gameOver` cleared, a grid of exactly 7 rows of 8
alive bricks (`remainingBricks()` is 56), the paddle centred with `dx = 0`,
and the ball docked on it with zero velocity. -/
theorem fullReset_restores (canvas : Canvas α) (s : World α) :
    (fullReset canvas s).state =
      { score := 0, lives := 3, paused := false, started := false, gameOver := false } ∧
    bricks.rows = 7 ∧ bricks.cols = 8 ∧
    (fullReset canvas s).grid.length = bricks.rows ∧
    (∀ row, row ∈ (fullReset canvas s).grid → row.length = bricks.cols) ∧
    (∀ r c, r < bricks.rows → c < bricks.cols →
      brickAt (fullReset canvas s).grid r c = some { alive := true }) ∧
    remainingBricks (fullReset canvas s).grid = some 56 ∧
    (fullReset canvas s).paddle.x = (canvas.width - (fullReset canvas s).paddle.w) / 2 ∧
    (fullReset canvas s).paddle.dx = 0 ∧
    (fullReset canvas s).ball.x =
      (fullReset canvas s).paddle.x + (fullReset canvas s).paddle.w / 2 ∧
    (fullReset canvas s).ball.y =
      (fullReset canvas s).paddle.y canvas - (fullReset canvas s).ball.r - 1 ∧
    (fullReset canvas s).ball.vx = 0 ∧ (fullReset canvas s).ball.vy = 0 := by
  have hg : (fullReset canvas s).grid = resetBricks := rfl
  rw [hg]
  refine ⟨rfl, rfl, rfl, by decide, by decide, ?_, by decide, rfl, rfl, rfl, rfl, rfl, rfl⟩
  intro r c hr hc
  have hr7 : r < 7 := hr
  have hc8 : c < 8 := hc
  interval_cases r <;> interval_cases c <;> rfl

/-- A restart evaluated on a lost game with no life and no brick left:
`fullReset` gives back the initial world, the held keys apart. -/
theorem fullReset_from_lost_game :
    deadWorld.state.gameOver = true ∧ deadWorld.state.lives = 0 ∧
    remainingBricks deadWorld.grid = some 0 ∧
    fullReset cvQ deadWorld = { initial cvQ with keys := deadWorld.keys } ∧
    remainingBricks (fullReset cvQ deadWorld).grid = some 56 := by
  decide!

/-- C7: `gameOver ⇒ paused` holds in the initial world, is kept by `update`
from any world, by the `keydown` handler (launch, pause toggle, restart), by
`keyup` and by `fullReset`, and so holds in every reachable world. -/
theorem gameOver_implies_paused (m : MathEnv α) (canvas : Canvas α) :
    GameOverPaused (initial canvas) ∧
    (∀ s w : World α, GameOverPaused s → update canvas s = some w → GameOverPaused w) ∧
    (∀ (s : World α) (key code : String) (u : α), GameOverPaused s →
      GameOverPaused (keydown m canvas key code u s)) ∧
    (∀ (s : World α) (key : String), GameOverPaused s → GameOverPaused (keyup key s)) ∧
    (∀ s : World α, GameOverPaused (fullReset canvas s)) ∧
    (∀ s : World α, Reachable m canvas s → GameOverPaused s) :=
  ⟨fun h => Bool.noConfusion h,
    fun s w hi h => update_gameOverPaused canvas s w hi h,
    fun s key code u hi => keydown_gameOverPaused m canvas key code u s hi,
    fun _ _ hi => hi,
    fun _ h => Bool.noConfusion h,
    fun s h => (reachable_inv m canvas s h).2.2.1⟩

/-- C8: in a reachable world whose game is over, a tick changes nothing and a
Space key press changes nothing but the set of held keys; a press of `r` that
is not a Space press does leave the state, for the world `fullReset` builds,
whose game is not over; and whatever event changes score, lives, flags,
paddle, ball or a brick is such a press of `r`. -/
theorem gameOver_terminal (m : MathEnv α) (canvas : Canvas α) (s : World α)
    (hr : Reachable m canvas s) (hg : s.state.gameOver = true) :
    loop canvas s = some s ∧
    (∀ (key code : String) (u : α), key.toLower = " " ∨ code = "Space" →
      keydown m canvas key code u s = { s with keys := keysAdd s.keys key.toLower }) ∧
    (∀ (key code : String) (u : α), key.toLower = "r" →
      ¬ (key.toLower = " " ∨ code = "Space") →
      keydown m canvas key code u s =
        fullReset canvas { s with keys := keysAdd s.keys key.toLower } ∧
      (keydown m canvas key code u s).state =
        { score := 0, lives := 3, paused := false, started := false, gameOver := false } ∧
      (keydown m canvas key code u s).state ≠ s.state) ∧
    (∀ (e : Event α) (w : World α), step m canvas e s = some w →
      (w.state = s.state ∧ w.paddle = s.paddle ∧ w.ball = s.ball ∧ w.grid = s.grid) ∨
      (∃ key code u, e = Event.keydown key code u ∧ key.toLower = "r" ∧
        ¬ (key.toLower = " " ∨ code = "Space") ∧
        w = fullReset canvas { s with keys := keysAdd s.keys key.toLower } ∧
        w.state.gameOver = false)) := by
  have hp : s.state.paused = true := (reachable_inv m canvas s hr).2.2.1 hg
  have hloop : loop canvas s = some s := by
    simp only [loop, hp, Bool.not_true, Bool.false_eq_true, if_false]
  have hspace : ∀ (key code : String) (u : α), key.toLower = " " ∨ code = "Space" →
      keydown m canvas key code u s = { s with keys := keysAdd s.keys key.toLower } := by
    intro key code u hsp
    simp only [keydown, if_pos hsp, hg, if_true]
  have hreset : ∀ (key code : String) (u : α), key.toLower = "r" →
      ¬ (key.toLower = " " ∨ code = "Space") →
      keydown m canvas key code u s =
        fullReset canvas { s with keys := keysAdd s.keys key.toLower } := by
    intro key code u hk hsp
    simp only [keydown, if_neg hsp, if_pos hk]
  refine ⟨hloop, hspace, fun key code u hk hsp => ?_, fun e w h => ?_⟩
  · refine ⟨hreset key code u hk hsp, by rw [hreset key code u hk hsp]; rfl, fun heq => ?_⟩
    have h1 : (keydown m canvas key code u s).state.gameOver = false := by
      rw [hreset key code u hk hsp]; rfl
    rw [heq, hg] at h1
    exact Bool.noConfusion h1
  cases e with
  | tick =>
    have h1 : loop canvas s = some w := h
    rw [hloop] at h1
    rw [← Option.some.inj h1]
    exact Or.inl ⟨rfl, rfl, rfl, rfl⟩
  | keyup key =>
    simp only [step, Option.some.injEq] at h
    rw [← h]
    exact Or.inl ⟨rfl, rfl, rfl, rfl⟩
  | keydown key code u =>
    simp only [step, Option.some.injEq] at h
    by_cases hsp : key.toLower = " " ∨ code = "Space"
    · rw [hspace key code u hsp] at h
      rw [← h]
      exact Or.inl ⟨rfl, rfl, rfl, rfl⟩
    · by_cases hk : key.toLower = "r"
      · rw [hreset key code u hk hsp] at h
        exact Or.inr ⟨key, code, u, rfl, hk, hsp, h.symm, by rw [← h]; rfl⟩
      · have e1 : keydown m canvas key code u s =
            { s with keys := keysAdd s.keys key.toLower } := by
          simp only [keydown, if_neg hsp, if_neg hk]
        rw [e1] at h
        rw [← h]
        exact Or.inl ⟨rfl, rfl, rfl, rfl⟩

/-- C8, at the world a play of 446 events that loses the three lives ends in. -/
theorem gameOver_terminal_witness :
    Reachable mathQ cvQ lostWorld ∧ lostWorld.state.gameOver = true ∧
    loop cvQ lostWorld = some lostWorld ∧
    (∀ (key code : String) (u : ℚ), key.toLower = " " ∨ code = "Space" →
      keydown mathQ cvQ key code u lostWorld =
        { lostWorld with keys := keysAdd lostWorld.keys key.toLower }) ∧
    (∀ (key code : String) (u : ℚ), key.toLower = "r" →
      ¬ (key.toLower = " " ∨ code = "Space") →
      keydown mathQ cvQ key code u lostWorld =
        fullReset cvQ { lostWorld with keys := keysAdd lostWorld.keys key.toLower } ∧
      (keydown mathQ cvQ key code u lostWorld).state =
        { score := 0, lives := 3, paused := false, started := false, gameOver := false } ∧
      (keydown mathQ cvQ key code u lostWorld).state ≠ lostWorld.state) ∧
    (∀ (e : Event ℚ) (w : World ℚ), step mathQ cvQ e lostWorld = some w →
      (w.state = lostWorld.state ∧ w.paddle = lostWorld.paddle ∧ w.ball = lostWorld.ball ∧
        w.grid = lostWorld.grid) ∨
      (∃ key code u, e = Event.keydown key code u ∧ key.toLower = "r" ∧
        ¬ (key.toLower = " " ∨ code = "Space") ∧
        w = fullReset cvQ { lostWorld with keys := keysAdd lostWorld.keys key.toLower } ∧
        w.state.gameOver = false)) :=
  ⟨lostWorld_reachable, rfl, gameOver_terminal mathQ cvQ lostWorld lostWorld_reachable rfl⟩

/-- The restart of a lost game evaluated: pressing `R` (key "R", code "KeyR")
in `lostWorld` gives the initial world with the held keys `" "`, `a`, `r`;
pressing Space there changes nothing but the held keys. -/
theorem restart_from_lost_game :
    keydown mathQ cvQ "R" "KeyR" 0 lostWorld = { initial cvQ with keys := [" ", "a", "r"] } ∧
    keydown mathQ cvQ " " "Space" 0 lostWorld = lostWorld := by
  decide!

/-- C9: in flight, when the moved ball touches no side wall and not the
ceiling, is not below the floor, does not hit the paddle and overlaps an alive
brick, `update` leaves the ball at exactly `(x + vx, y + vy)` with `vx` as it
was and `vy` negated, and raises the score by exactly 10. -/
theorem update_brick_bounce (canvas : Canvas α) (s : World α) (hgrid : GridOK s.grid)
    (hs : s.state.started = true)
    (hl : 0 < (ballMove s.ball).x - s.ball.r)
    (hrw : (ballMove s.ball).x + s.ball.r < canvas.width)
    (hc : 0 < (ballMove s.ball).y - s.ball.r)
    (hf : ¬ BelowFloor canvas s) (hp : ¬ PaddleHit canvas s)
    (hov : ∃ r c, r < bricks.rows ∧ c < bricks.cols ∧ aliveAt s.grid r c = true ∧
      brickOverlap (ballMove s.ball) r c = true) :
    ∃ w, update canvas s = some w ∧
      w.ball.x = s.ball.x + s.ball.vx ∧ w.ball.y = s.ball.y + s.ball.vy ∧
      w.ball.vx = s.ball.vx ∧ w.ball.vy = -s.ball.vy ∧
      w.state.score = s.state.score + 10 := by
  have haw : (afterWalls canvas s).ball = ballMove s.ball :=
    wallCollisions_none canvas (ballMove s.ball) hl hrw hc
  have hbs : (beforeScan canvas s).ball = ballMove s.ball := by
    rw [paddleCollision_none canvas s hp, haw]
  rcases update_cases canvas s hgrid with ⟨h0, _⟩ | ⟨_, hb, _⟩ | ⟨_, ⟨_, hno⟩ | ⟨r, c, w, _, hres, hu⟩⟩
  · rw [hs] at h0; exact Bool.noConfusion h0
  · exact absurd hb hf
  · obtain ⟨r, c, h1, h2, h3, h4⟩ := hov
    exact absurd ⟨h1, h2, h3, by rw [hbs]; exact h4⟩ (hno r c)
  · obtain ⟨_, _, _, hball, hscore, _⟩ := hres
    rw [hbs] at hball
    refine ⟨w, hu, by rw [hball]; rfl, by rw [hball]; rfl, by rw [hball]; rfl, ?_, hscore⟩
    rw [hball]
    exact mul_neg_one _

/-- C9, on the scenario of the specification: the ball at (100, 100) moving by
(3, 4) ends at (103, 104) with velocity (3, -4) and ten points more. -/
theorem update_brick_bounce_witness :
    GridOK exampleWorld.grid ∧ exampleWorld.state.started = true ∧
    0 < (ballMove exampleWorld.ball).x - exampleWorld.ball.r ∧
    (ballMove exampleWorld.ball).x + exampleWorld.ball.r < cvQ.width ∧
    0 < (ballMove exampleWorld.ball).y - exampleWorld.ball.r ∧
    ¬ BelowFloor cvQ exampleWorld ∧ ¬ PaddleHit cvQ exampleWorld ∧
    (∃ r c, r < bricks.rows ∧ c < bricks.cols ∧ aliveAt exampleWorld.grid r c = true ∧
      brickOverlap (ballMove exampleWorld.ball) r c = true) ∧
    ∃ w, update cvQ exampleWorld = some w ∧
      w.ball.x = exampleWorld.ball.x + exampleWorld.ball.vx ∧
      w.ball.y = exampleWorld.ball.y + exampleWorld.ball.vy ∧
      w.ball.vx = exampleWorld.ball.vx ∧ w.ball.vy = -exampleWorld.ball.vy ∧
      w.state.score = exampleWorld.state.score + 10 :=
  ⟨by decide, rfl, by decide!, by decide!, by decide!, by decide!, by decide!,
    ⟨1, 1, by decide!⟩,
    update_brick_bounce cvQ exampleWorld (by decide) rfl (by decide!) (by decide!) (by decide!)
      (by decide!) (by decide!) ⟨1, 1, by decide!⟩⟩

/-- The scenario of the specification evaluated: the ball ends at (103, 104)
with velocity (3, -4), the score goes from 0 to 10, and the brick (1, 1),
whose rectangle (80, 98, 48, 18) covers that point, is dead. -/
theorem update_example_scenario :
    (update cvQ exampleWorld).map (fun w => (w.ball, w.state.score, brickAt w.grid 1 1)) =
      some (({ x := 103, y := 104, vx := 3, vy := -4 } : Ball ℚ), 10, some { alive := false }) ∧
    circleRectCollision (103 : ℚ) 104 7 80 98 48 18 = true := by
  decide!

/-- C10: in flight on an arena wider than the ball, when the moved ball touches
or crosses the left or the right boundary and the step neither loses a life
nor hits the paddle, `update` leaves `vx` negated and puts `ball.x` at `r`
(left) or at `canvas.width - r` (right). -/
theorem update_side_wall_bounce (canvas : Canvas α) (s : World α) (hgrid : GridOK s.grid)
    (hs : s.state.started = true)
    (hW : 2 * s.ball.r < canvas.width)
    (hwall : (ballMove s.ball).x - s.ball.r ≤ 0 ∨ canvas.width ≤ (ballMove s.ball).x + s.ball.r)
    (hf : ¬ BelowFloor canvas s) (hp : ¬ PaddleHit canvas s) :
    ∃ w, update canvas s = some w ∧
      w.ball.vx = -s.ball.vx ∧
      ((ballMove s.ball).x - s.ball.r ≤ 0 → w.ball.x = s.ball.r) ∧
      (canvas.width ≤ (ballMove s.ball).x + s.ball.r → w.ball.x = canvas.width - s.ball.r) := by
  have hr7 : s.ball.r = 7 := rfl
  rw [hr7] at hW hwall
  have haw : (afterWalls canvas s).ball.vx = -s.ball.vx ∧
      ((ballMove s.ball).x - 7 ≤ 0 → (afterWalls canvas s).ball.x = 7) ∧
      (canvas.width ≤ (ballMove s.ball).x + 7 →
        (afterWalls canvas s).ball.x = canvas.width - 7) := by
    have e : (afterWalls canvas s).ball = wallCollisions canvas (ballMove s.ball) := rfl
    rw [e]
    by_cases h1 : (ballMove s.ball).x - 7 ≤ 0
    · have h2 : ¬ canvas.width ≤ (7 : α) + 7 := by linarith
      have h3 : ¬ canvas.width ≤ (ballMove s.ball).x + 7 := by linarith
      refine ⟨?_, fun _ => ?_, fun h => absurd h h3⟩
      · simp only [wallCollisions, Ball.r, if_pos h1, ge_iff_le, if_neg h2]
        split <;> exact mul_neg_one _
      · simp only [wallCollisions, Ball.r, if_pos h1, ge_iff_le, if_neg h2]
        split <;> rfl
    · have h2 : canvas.width ≤ (ballMove s.ball).x + 7 := by
        rcases hwall with h | h
        · exact absurd h h1
        · exact h
      refine ⟨?_, fun h => absurd h h1, fun _ => ?_⟩
      · simp only [wallCollisions, Ball.r, if_neg h1, ge_iff_le, if_pos h2]
        split <;> exact mul_neg_one _
      · simp only [wallCollisions, Ball.r, if_neg h1, ge_iff_le, if_pos h2]
        split <;> rfl
  have hbs : (beforeScan canvas s).ball = (afterWalls canvas s).ball :=
    paddleCollision_none canvas s hp
  rw [hr7]
  rcases update_cases canvas s hgrid with ⟨h0, _⟩ | ⟨_, hb, _⟩ | ⟨_, ⟨hu, _⟩ | ⟨r, c, w, _, hres, hu⟩⟩
  · rw [hs] at h0; exact Bool.noConfusion h0
  · exact absurd hb hf
  · refine ⟨_, hu, ?_⟩
    rw [hbs]
    exact haw
  · obtain ⟨_, _, _, hball, _⟩ := hres
    rw [hbs] at hball
    refine ⟨w, hu, ?_⟩
    rw [hball]
    exact haw

/-- C10, on a ball that crosses the left wall of the 480 x 640 canvas. -/
theorem update_side_wall_bounce_witness :
    GridOK leftWallWorld.grid ∧ leftWallWorld.state.started = true ∧
    2 * leftWallWorld.ball.r < cvQ.width ∧
    ((ballMove leftWallWorld.ball).x - leftWallWorld.ball.r ≤ 0 ∨
      cvQ.width ≤ (ballMove leftWallWorld.ball).x + leftWallWorld.ball.r) ∧
    ¬ BelowFloor cvQ leftWallWorld ∧ ¬ PaddleHit cvQ leftWallWorld ∧
    ∃ w, update cvQ leftWallWorld = some w ∧
      w.ball.vx = -leftWallWorld.ball.vx ∧
      ((ballMove leftWallWorld.ball).x - leftWallWorld.ball.r ≤ 0 →
        w.ball.x = leftWallWorld.ball.r) ∧
      (cvQ.width ≤ (ballMove leftWallWorld.ball).x + leftWallWorld.ball.r →
        w.ball.x = cvQ.width - leftWallWorld.ball.r) :=
  ⟨by decide, rfl, by decide!, Or.inl (by decide!), by decide!, by decide!,
    update_side_wall_bounce cvQ leftWallWorld (by decide) rfl (by decide!) (Or.inl (by decide!))
      (by decide!) (by decide!)⟩

/-- The scenario of two adjacent bricks evaluated: the ball at (133, 104) overlaps
the alive bricks (1, 1) and (1, 2); after the step (1, 1) is dead and (1, 2)
is still alive. -/
theorem update_two_adjacent_bricks :
    Overlapped (beforeScan cvQ twoBricksWorld) 1 1 ∧
    Overlapped (beforeScan cvQ twoBricksWorld) 1 2 ∧
    (update cvQ twoBricksWorld).map (fun w => (brickAt w.grid 1 1, brickAt w.grid 1 2)) =
      some (some { alive := false }, some { alive := true }) := by
  decide!

/-- The launch over the reals for any real draw `u` in `[0, 1)`: `started` is
set, `vx = speed * cos angle` and `vy = -|speed * sin angle|` for
`angle = (0.9 * u + 0.15) * π`; `vy ≤ 0`, `vy < 0` unless `u = 17 / 18`, and
`|vx| ≤ speed`. -/
theorem launchBall_upward (u : ℝ) (h0 : 0 ≤ u) (h1 : u < 1) (s : World ℝ) :
    (launchBall ⟨Real.cos, Real.sin, Real.pi⟩ u s).state.started = true ∧
    (launchBall ⟨Real.cos, Real.sin, Real.pi⟩ u s).ball.vx =
      s.ball.speed * Real.cos ((0.9 * u + 0.15) * Real.pi) ∧
    (launchBall ⟨Real.cos, Real.sin, Real.pi⟩ u s).ball.vy =
      -|s.ball.speed * Real.sin ((0.9 * u + 0.15) * Real.pi)| ∧
    (launchBall ⟨Real.cos, Real.sin, Real.pi⟩ u s).ball.vy ≤ 0 ∧
    (u ≠ 17 / 18 → (launchBall ⟨Real.cos, Real.sin, Real.pi⟩ u s).ball.vy < 0) ∧
    |(launchBall ⟨Real.cos, Real.sin, Real.pi⟩ u s).ball.vx| ≤ s.ball.speed := by
  have hvx : (launchBall ⟨Real.cos, Real.sin, Real.pi⟩ u s).ball.vx =
      s.ball.speed * Real.cos ((0.9 * u + 0.15) * Real.pi) := by
    show Real.cos ((u * 0.9 + 0.15) * Real.pi) * s.ball.speed = _
    rw [mul_comm u 0.9, mul_comm]
  have hvy : (launchBall ⟨Real.cos, Real.sin, Real.pi⟩ u s).ball.vy =
      -|s.ball.speed * Real.sin ((0.9 * u + 0.15) * Real.pi)| := by
    show -|Real.sin ((u * 0.9 + 0.15) * Real.pi) * s.ball.speed| = _
    rw [mul_comm u 0.9, mul_comm]
  have hsp : s.ball.speed = 5 := rfl
  refine ⟨rfl, hvx, hvy, ?_, ?_, ?_⟩
  · rw [hvy]; exact neg_nonpos.mpr (abs_nonneg _)
  · intro hu
    rw [hvy, neg_lt_zero, abs_pos, hsp]
    have hpi := Real.pi_pos
    have hs : Real.sin ((0.9 * u + 0.15) * Real.pi) ≠ 0 := by
      rcases lt_or_gt_of_ne hu with hlt | hgt
      · have hlt1 : 0.9 * u + 0.15 < 1 := by norm_num; linarith
        have hpos : 0 < 0.9 * u + 0.15 := by norm_num; linarith
        exact ne_of_gt (Real.sin_pos_of_pos_of_lt_pi (mul_pos hpos hpi)
          (by nlinarith))
      · have hgt1 : 1 < 0.9 * u + 0.15 := by norm_num; linarith
        have hlt2 : 0.9 * u + 0.15 < 2 := by norm_num; linarith
        have e : Real.sin ((0.9 * u + 0.15) * Real.pi) =
            -Real.sin ((0.9 * u + 0.15) * Real.pi - Real.pi) := by
          rw [Real.sin_sub_pi, neg_neg]
        rw [e, neg_ne_zero]
        exact ne_of_gt (Real.sin_pos_of_pos_of_lt_pi (by nlinarith) (by nlinarith))
    exact mul_ne_zero (by norm_num) hs
  · rw [hvx, hsp, abs_mul]
    have := Real.abs_cos_le_one ((0.9 * u + 0.15) * Real.pi)
    rw [abs_of_pos (by norm_num : (0:ℝ) < 5)]
    linarith

/-- The launch at the real number `17 / 18`, which is no binary fraction and so
no value of `Math.random()`: the angle is `π`, the sine is 0 and `vy = 0`.
This is why the draw is taken to be a double below. -/
theorem launchBall_horizontal :
    (0 : ℝ) ≤ 17 / 18 ∧ (17 / 18 : ℝ) < 1 ∧
    ¬ ((launchBall ⟨Real.cos, Real.sin, Real.pi⟩ (17 / 18) (initial ⟨480, 640⟩)).ball.vy < 0) := by
  refine ⟨by norm_num, by norm_num, ?_⟩
  have e : (launchBall ⟨Real.cos, Real.sin, Real.pi⟩ (17 / 18 : ℝ) (initial ⟨480, 640⟩)).ball.vy
      = -|Real.sin (((17 / 18 : ℝ) * 0.9 + 0.15) * Real.pi) * 5| := rfl
  have e1 : ((17 / 18 : ℝ) * 0.9 + 0.15) = 1 := by norm_num
  rw [e, e1, one_mul, Real.sin_pi]
  norm_num

/-- C11: for every draw `u` in `[0, 1)` that `Math.random()` can return, that
is, every double, a binary fraction `k / 2 ^ n`, and with the real cosine,
sine and `π`, `launchBall` sets `started`, `vx = speed * cos angle` and
`vy = -|speed * sin angle|` for `angle = (0.9 * u + 0.15) * π`, and the result
has `vy < 0` and `|vx| ≤ speed`. -/
theorem launchBall_vy_negative (u : ℝ) (h0 : 0 ≤ u) (h1 : u < 1)
    (hd : ∃ k n : ℕ, u = (k : ℝ) / 2 ^ n) (s : World ℝ) :
    (launchBall ⟨Real.cos, Real.sin, Real.pi⟩ u s).state.started = true ∧
    (launchBall ⟨Real.cos, Real.sin, Real.pi⟩ u s).ball.vx =
      s.ball.speed * Real.cos ((0.9 * u + 0.15) * Real.pi) ∧
    (launchBall ⟨Real.cos, Real.sin, Real.pi⟩ u s).ball.vy =
      -|s.ball.speed * Real.sin ((0.9 * u + 0.15) * Real.pi)| ∧
    (launchBall ⟨Real.cos, Real.sin, Real.pi⟩ u s).ball.vy < 0 ∧
    |(launchBall ⟨Real.cos, Real.sin, Real.pi⟩ u s).ball.vx| ≤ s.ball.speed := by
  obtain ⟨g1, g2, g3, _, g5, g6⟩ := launchBall_upward u h0 h1 s
  exact ⟨g1, g2, g3, g5 (binary_fraction_ne u hd), g6⟩

/-- C11, at the draw `u = 1 / 2`, whose angle is `0.6 π`. -/
theorem launchBall_vy_negative_witness :
    (0 : ℝ) ≤ 1 / 2 ∧ (1 / 2 : ℝ) < 1 ∧ (∃ k n : ℕ, (1 / 2 : ℝ) = (k : ℝ) / 2 ^ n) ∧
    (launchBall ⟨Real.cos, Real.sin, Real.pi⟩ (1 / 2) (initial ⟨480, 640⟩)).state.started = true ∧
    (launchBall ⟨Real.cos, Real.sin, Real.pi⟩ (1 / 2) (initial ⟨480, 640⟩)).ball.vx =
      (initial (⟨480, 640⟩ : Canvas ℝ)).ball.speed * Real.cos ((0.9 * (1 / 2) + 0.15) * Real.pi) ∧
    (launchBall ⟨Real.cos, Real.sin, Real.pi⟩ (1 / 2) (initial ⟨480, 640⟩)).ball.vy =
      -|(initial (⟨480, 640⟩ : Canvas ℝ)).ball.speed *
          Real.sin ((0.9 * (1 / 2) + 0.15) * Real.pi)| ∧
    (launchBall ⟨Real.cos, Real.sin, Real.pi⟩ (1 / 2) (initial ⟨480, 640⟩)).ball.vy < 0 ∧
    |(launchBall ⟨Real.cos, Real.sin, Real.pi⟩ (1 / 2) (initial ⟨480, 640⟩)).ball.vx| ≤
      (initial (⟨480, 640⟩ : Canvas ℝ)).ball.speed :=
  ⟨by norm_num, by norm_num, ⟨1, 1, by norm_num⟩,
    launchBall_vy_negative (1 / 2) (by norm_num) (by norm_num) ⟨1, 1, by norm_num⟩
      (initial ⟨480, 640⟩)⟩

/-- The test in exact arithmetic: for a rectangle of non-negative width and
height, `circleRectCollision` is true exactly when some point of the closed
rectangle lies within distance `r` of the centre. -/
theorem circleRectCollision_iff (cx cy r rx ry rw rh : α) (hw : 0 ≤ rw) (hh : 0 ≤ rh) :
    circleRectCollision cx cy r rx ry rw rh = true ↔
      ∃ px py, rx ≤ px ∧ px ≤ rx + rw ∧ ry ≤ py ∧ py ≤ ry + rh ∧
        (cx - px) ^ 2 + (cy - py) ^ 2 ≤ r ^ 2 := by
  have hx : rx ≤ rx + rw := by linarith
  have hy : ry ≤ ry + rh := by linarith
  simp only [circleRectCollision, decide_eq_true_eq]
  constructor
  · intro h
    refine ⟨clamp cx rx (rx + rw), clamp cy ry (ry + rh), (clamp_bounds _ _ _ hx).1,
      (clamp_bounds _ _ _ hx).2, (clamp_bounds _ _ _ hy).1, (clamp_bounds _ _ _ hy).2, ?_⟩
    rw [pow_two, pow_two, pow_two]
    exact h
  · rintro ⟨px, py, h1, h2, h3, h4, h5⟩
    rw [pow_two, pow_two, pow_two] at h5
    have e1 := clamp_nearest cx rx (rx + rw) px h1 h2
    have e2 := clamp_nearest cy ry (ry + rh) py h3 h4
    linarith

/-- The exact test on the ball at (103, 104) of radius 7 and the rectangle
(90, 95, 48, 18). -/
theorem circleRectCollision_iff_witness :
    (0 : ℚ) ≤ 48 ∧ (0 : ℚ) ≤ 18 ∧
    (circleRectCollision (103 : ℚ) 104 7 90 95 48 18 = true ↔
      ∃ px py : ℚ, 90 ≤ px ∧ px ≤ 90 + 48 ∧ 95 ≤ py ∧ py ≤ 95 + 18 ∧
        (103 - px) ^ 2 + (104 - py) ^ 2 ≤ 7 ^ 2) :=
  ⟨by decide!, by decide!, circleRectCollision_iff 103 104 7 90 95 48 18 (by decide!) (by decide!)⟩

/-- The collision test of the specification's example evaluated, exactly and
in doubles. -/
theorem circleRectCollision_example :
    circleRectCollision (103 : ℚ) 104 7 90 95 48 18 = true ∧
    circleRectCollisionF 103 104 7 90 95 48 18 = true := by decide!

/-- C12 as stated fails on doubles: for the ball centre (15, 70 - 2⁻³⁰) of
radius 7 and the brick rectangle (22, 70, 48, 18), all doubles, the test
returns true, because `49 + 2⁻⁶⁰` rounds to 49, while no point of the
rectangle is within distance 7 of the centre. -/
theorem circleRectCollision_rounding :
    roundDouble (70 - 1 / 2 ^ 30) = 70 - 1 / 2 ^ 30 ∧
    circleRectCollisionF 15 (70 - 1 / 2 ^ 30) 7 22 70 48 18 = true ∧
    ¬ ∃ px py : ℚ, 22 ≤ px ∧ px ≤ 22 + 48 ∧ 70 ≤ py ∧ py ≤ 70 + 18 ∧
        (15 - px) ^ 2 + (70 - 1 / 2 ^ 30 - py) ^ 2 ≤ 7 ^ 2 := by
  refine ⟨by decide!, by decide!, ?_⟩
  rintro ⟨px, py, h1, _, h3, _, h5⟩
  have hy : (0 : ℚ) < py - (70 - 1 / 2 ^ 30) := by
    have : (0 : ℚ) < 1 / 2 ^ 30 := by positivity
    linarith
  nlinarith [mul_pos hy hy]

/-- C12 (amended): for a rectangle of non-negative width and height and
arguments at which the double computation rounds nothing (`ExactTest`),
`circleRectCollision` as computed on doubles is true exactly when some point
of the closed rectangle lies within distance `r` of the centre, that is, when
the closed disc and the closed rectangle overlap. -/
theorem circleRectCollisionF_iff (cx cy r rx ry rw rh : ℚ) (hw : 0 ≤ rw) (hh : 0 ≤ rh)
    (hex : ExactTest cx cy r rx ry rw rh) :
    circleRectCollisionF cx cy r rx ry rw rh = true ↔
      ∃ px py, rx ≤ px ∧ px ≤ rx + rw ∧ ry ≤ py ∧ py ≤ ry + rh ∧
        (cx - px) ^ 2 + (cy - py) ^ 2 ≤ r ^ 2 := by
  obtain ⟨e1, e2, e3, e4, e5, e6, e7, e8⟩ := hex
  have h : circleRectCollisionF cx cy r rx ry rw rh = circleRectCollision cx cy r rx ry rw rh := by
    simp only [circleRectCollisionF, circleRectCollision, e1, e2, e3, e4, e5, e6, e7, e8]
  rw [h]
  exact circleRectCollision_iff cx cy r rx ry rw rh hw hh

/-- C12 (amended), on the ball at (103, 104) of radius 7 and the rectangle
(90, 95, 48, 18). -/
theorem circleRectCollisionF_iff_witness :
    (0 : ℚ) ≤ 48 ∧ (0 : ℚ) ≤ 18 ∧ ExactTest 103 104 7 90 95 48 18 ∧
    (circleRectCollisionF 103 104 7 90 95 48 18 = true ↔
      ∃ px py : ℚ, 90 ≤ px ∧ px ≤ 90 + 48 ∧ 95 ≤ py ∧ py ≤ 95 + 18 ∧
        (103 - px) ^ 2 + (104 - py) ^ 2 ≤ 7 ^ 2) :=
  ⟨by decide!, by decide!, by decide!,
    circleRectCollisionF_iff 103 104 7 90 95 48 18 (by decide!) (by decide!) (by decide!)⟩

/-- The double test on integers: for integer arguments up to `2 ^ 24` in
magnitude nothing is rounded, and the test is true exactly when the closed
disc and the closed rectangle overlap. -/
theorem circleRectCollisionF_int (cx cy r rx ry rw rh : ℤ)
    (h1 : |cx| ≤ 2 ^ 24) (h2 : |cy| ≤ 2 ^ 24) (h3 : |r| ≤ 2 ^ 24) (h4 : |rx| ≤ 2 ^ 24)
    (h5 : |ry| ≤ 2 ^ 24) (h6 : 0 ≤ rw) (h7 : rw ≤ 2 ^ 24) (h8 : 0 ≤ rh) (h9 : rh ≤ 2 ^ 24) :
    circleRectCollisionF cx cy r rx ry rw rh = true ↔
      ∃ px py : ℚ, (rx : ℚ) ≤ px ∧ px ≤ rx + rw ∧ (ry : ℚ) ≤ py ∧ py ≤ ry + rh ∧
        (cx - px) ^ 2 + (cy - py) ^ 2 ≤ (r : ℚ) ^ 2 := by
  have hex := exactTest_of_int cx cy r rx ry rw rh h1 h2 h3 h4 h5 h6 h7 h8 h9
  obtain ⟨e1, e2, e3, e4, e5, e6, e7, e8⟩ := hex
  have h : circleRectCollisionF (cx : ℚ) cy r rx ry rw rh =
      circleRectCollision (cx : ℚ) cy r rx ry rw rh := by
    simp only [circleRectCollisionF, circleRectCollision, e1, e2, e3, e4, e5, e6, e7, e8]
  rw [h]
  exact circleRectCollision_iff (cx : ℚ) cy r rx ry rw rh (by exact_mod_cast h6)
    (by exact_mod_cast h8)

/-- C13: for `lo ≤ hi`, `clamp v lo hi` is `v` when `lo ≤ v ≤ hi`, `lo` when
`v < lo` and `hi` when `v > hi`; so it lies in `[lo, hi]` and clamping twice
is clamping once. -/
theorem clamp_spec (v lo hi : α) (h : lo ≤ hi) :
    (lo ≤ v → v ≤ hi → clamp v lo hi = v) ∧
    (v < lo → clamp v lo hi = lo) ∧
    (hi < v → clamp v lo hi = hi) ∧
    lo ≤ clamp v lo hi ∧ clamp v lo hi ≤ hi ∧
    clamp (clamp v lo hi) lo hi = clamp v lo hi :=
  ⟨clamp_of_mem v lo hi, clamp_of_lt v lo hi h, clamp_of_gt v lo hi h,
    (clamp_bounds v lo hi h).1, (clamp_bounds v lo hi h).2,
    clamp_of_mem _ lo hi (clamp_bounds v lo hi h).1 (clamp_bounds v lo hi h).2⟩

/-- C13, on a paddle position 377 clamped into `[0, 370]`. -/
theorem clamp_spec_witness :
    (0 : ℚ) ≤ 370 ∧
    ((0 : ℚ) ≤ 377 → (377 : ℚ) ≤ 370 → clamp (377 : ℚ) 0 370 = 377) ∧
    ((377 : ℚ) < 0 → clamp (377 : ℚ) 0 370 = 0) ∧
    ((370 : ℚ) < 377 → clamp (377 : ℚ) 0 370 = 370) ∧
    (0 : ℚ) ≤ clamp (377 : ℚ) 0 370 ∧ clamp (377 : ℚ) 0 370 ≤ 370 ∧
    clamp (clamp (377 : ℚ) 0 370) 0 370 = clamp (377 : ℚ) 0 370 :=
  ⟨by decide!, clamp_spec 377 0 370 (by decide!)⟩

/-- C14: in every reachable world `lives` is an integer between 0 and 3. -/
theorem lives_in_range (m : MathEnv α) (canvas : Canvas α) (s : World α)
    (hr : Reachable m canvas s) : 0 ≤ s.state.lives ∧ s.state.lives ≤ 3 :=
  ⟨(reachable_tally m canvas s hr).2.1, (reachable_tally m canvas s hr).2.2.1⟩

/-- C14, at the lost game `lostWorld`, where `lives` is 0. -/
theorem lives_in_range_witness :
    Reachable mathQ cvQ lostWorld ∧ 0 ≤ lostWorld.state.lives ∧ lostWorld.state.lives ≤ 3 :=
  ⟨lostWorld_reachable, lives_in_range mathQ cvQ lostWorld lostWorld_reachable⟩

/-- C15 fails on the code: on a ball that strikes the upper left corner of the
paddle the collision fires with `hitPos = -12 / 11`, outside `[-1, 1]`, and
`update` leaves `vx = -6`. -/
theorem hitPos_at_paddle_corner :
    cornerWorld.state.started = true ∧ cornerWorld.state.gameOver = false ∧
    PaddleHit cvQ cornerWorld ∧
    hitPos (afterWalls cvQ cornerWorld).paddle (afterWalls cvQ cornerWorld).ball = -12 / 11 ∧
    ¬ (-1 ≤ hitPos (afterWalls cvQ cornerWorld).paddle (afterWalls cvQ cornerWorld).ball) ∧
    (update cvQ cornerWorld).map (fun w => w.ball) =
      some { x := 180, y := 602, vx := -6, vy := -4 } := by
  decide!

/-- C16: on an arena higher than 301, when the paddle collision fires the
step ends with the ball at `y = paddle.y - ball.r - 1`, `vy` strictly negative
and of the magnitude it had, `|vx| ≤ 1.4 * ball.speed`, and no brick hit: the
repositioned ball overlaps no brick, grid and score are unchanged. -/
theorem paddle_hit_bounce (canvas : Canvas α) (s : World α) (hH : 301 < canvas.height)
    (hgrid : GridOK s.grid) (hs : s.state.started = true) (hf : ¬ BelowFloor canvas s)
    (hp : PaddleHit canvas s) :
    ∃ w, update canvas s = some w ∧
      w.ball.y = w.paddle.y canvas - w.ball.r - 1 ∧
      w.ball.vy < 0 ∧ w.ball.vy = -(afterWalls canvas s).ball.vy ∧
      |w.ball.vy| = |s.ball.vy| ∧
      |w.ball.vx| ≤ 1.4 * w.ball.speed ∧
      (∀ r c, ¬ Overlapped (beforeScan canvas s) r c) ∧
      w.grid = s.grid ∧ w.state.score = s.state.score := by
  have hball := paddleCollision_hit canvas s hp
  have hbelow : 256 < (beforeScan canvas s).ball.y - (beforeScan canvas s).ball.r := by
    rw [hball]
    show (256 : α) < canvas.height - 30 - 7 - 1 - 7
    linarith
  have hno := no_overlap_below (beforeScan canvas s) hbelow
  have hvy : (0 : α) < (afterWalls canvas s).ball.vy := hp.1
  have hu : update canvas s = some (beforeScan canvas s) := by
    rw [update_scan canvas s ⟨hs, hf⟩]
    rcases brickCollisions_spec (beforeScan canvas s) hgrid with ⟨hu, _⟩ | ⟨r, c, _, hfo, _⟩
    · exact hu
    · exact absurd hfo.1 (hno r c)
  refine ⟨_, hu, ?_, ?_, ?_, ?_, ?_, hno, rfl, rfl⟩
  · rw [hball]; rfl
  · rw [hball]
    show -|(afterWalls canvas s).ball.vy| < 0
    rw [abs_of_pos hvy]
    linarith
  · rw [hball]
    show -|(afterWalls canvas s).ball.vy| = _
    rw [abs_of_pos hvy]
  · rw [hball]
    show |(-|(afterWalls canvas s).ball.vy|)| = _
    rw [abs_neg, abs_abs]
    exact wallCollisions_abs_vy canvas (ballMove s.ball)
  · rw [hball]
    have e14 : (1.4 : α) = 14 / 10 := by norm_num
    have hcb := clamp_bounds
      (hitPos (afterWalls canvas s).paddle (afterWalls canvas s).ball *
        (afterWalls canvas s).ball.speed * 1.1)
      (-((afterWalls canvas s).ball.speed * 1.4)) ((afterWalls canvas s).ball.speed * 1.4)
      (by show -((5 : α) * 1.4) ≤ 5 * 1.4; rw [e14]; norm_num)
    show |clamp _ _ _| ≤ 1.4 * (5 : α)
    rw [abs_le]
    constructor
    · have := hcb.1
      have e : (afterWalls canvas s).ball.speed = 5 := rfl
      rw [e] at this
      linarith
    · have := hcb.2
      have e : (afterWalls canvas s).ball.speed = 5 := rfl
      rw [e] at this
      linarith

/-- C16, on a ball that lands on the paddle of the 480 x 640 canvas. -/
theorem paddle_hit_bounce_witness :
    301 < cvQ.height ∧ GridOK paddleHitWorld.grid ∧ paddleHitWorld.state.started = true ∧
    ¬ BelowFloor cvQ paddleHitWorld ∧ PaddleHit cvQ paddleHitWorld ∧
    ∃ w, update cvQ paddleHitWorld = some w ∧
      w.ball.y = w.paddle.y cvQ - w.ball.r - 1 ∧
      w.ball.vy < 0 ∧ w.ball.vy = -(afterWalls cvQ paddleHitWorld).ball.vy ∧
      |w.ball.vy| = |paddleHitWorld.ball.vy| ∧
      |w.ball.vx| ≤ 1.4 * w.ball.speed ∧
      (∀ r c, ¬ Overlapped (beforeScan cvQ paddleHitWorld) r c) ∧
      w.grid = paddleHitWorld.grid ∧ w.state.score = paddleHitWorld.state.score :=
  ⟨by decide!, by decide, rfl, by decide!, by decide!,
    paddle_hit_bounce cvQ paddleHitWorld (by decide!) (by decide) rfl (by decide!) (by decide!)⟩

/-- C17: with `ball.r = 7`, `paddle.w = 110` and `ball.speed = 5`, whenever
the paddle collision fires `|hitPos| ≤ 62 / 55`, so
`|hitPos * speed * 1.1| ≤ 6.2 < 7 = 1.4 * speed`: the clamp leaves `vx` as it
is and `update` ends with `vx = hitPos * speed * 1.1`. -/
theorem paddle_hit_vx_is_spin (canvas : Canvas α) (s : World α) (hgrid : GridOK s.grid)
    (hs : s.state.started = true) (hf : ¬ BelowFloor canvas s) (hp : PaddleHit canvas s) :
    (afterWalls canvas s).ball.r = 7 ∧ (afterWalls canvas s).paddle.w = 110 ∧
    (afterWalls canvas s).ball.speed = 5 ∧
    |hitPos (afterWalls canvas s).paddle (afterWalls canvas s).ball| ≤ 62 / 55 ∧
    |hitPos (afterWalls canvas s).paddle (afterWalls canvas s).ball *
        (afterWalls canvas s).ball.speed * 1.1| ≤ 6.2 ∧
    (6.2 : α) < 7 ∧ (afterWalls canvas s).ball.speed * 1.4 = 7 ∧
    clamp (hitPos (afterWalls canvas s).paddle (afterWalls canvas s).ball *
        (afterWalls canvas s).ball.speed * 1.1)
      (-((afterWalls canvas s).ball.speed * 1.4)) ((afterWalls canvas s).ball.speed * 1.4) =
      hitPos (afterWalls canvas s).paddle (afterWalls canvas s).ball *
        (afterWalls canvas s).ball.speed * 1.1 ∧
    ∃ w, update canvas s = some w ∧
      w.ball.vx = hitPos (afterWalls canvas s).paddle (afterWalls canvas s).ball *
        (afterWalls canvas s).ball.speed * 1.1 := by
  obtain ⟨h1, h2⟩ := hit_vx_unclamped canvas s hp
  have hcl : clamp (hitPos (afterWalls canvas s).paddle (afterWalls canvas s).ball *
        (afterWalls canvas s).ball.speed * 1.1)
      (-((afterWalls canvas s).ball.speed * 1.4)) ((afterWalls canvas s).ball.speed * 1.4) =
      hitPos (afterWalls canvas s).paddle (afterWalls canvas s).ball *
        (afterWalls canvas s).ball.speed * 1.1 := by
    have h3 := h2
    rw [paddleCollision_hit canvas s hp] at h3
    exact h3
  refine ⟨rfl, rfl, rfl, hitPos_bound canvas s hp, h1, by norm_num, ?_, hcl, ?_⟩
  · show (5 : α) * 1.4 = 7
    norm_num
  · rw [update_scan canvas s ⟨hs, hf⟩]
    rcases brickCollisions_spec (beforeScan canvas s) hgrid with ⟨hu, _⟩ | ⟨r, c, w, _, hres, hu⟩
    · exact ⟨_, hu, h2⟩
    · refine ⟨w, hu, ?_⟩
      rw [hres.2.2.2.1]
      exact h2

/-- C17, on the ball that strikes the corner of the paddle. -/
theorem paddle_hit_vx_is_spin_witness :
    GridOK cornerWorld.grid ∧ cornerWorld.state.started = true ∧
    ¬ BelowFloor cvQ cornerWorld ∧ PaddleHit cvQ cornerWorld ∧
    (afterWalls cvQ cornerWorld).ball.r = 7 ∧ (afterWalls cvQ cornerWorld).paddle.w = 110 ∧
    (afterWalls cvQ cornerWorld).ball.speed = 5 ∧
    |hitPos (afterWalls cvQ cornerWorld).paddle (afterWalls cvQ cornerWorld).ball| ≤ 62 / 55 ∧
    |hitPos (afterWalls cvQ cornerWorld).paddle (afterWalls cvQ cornerWorld).ball *
        (afterWalls cvQ cornerWorld).ball.speed * 1.1| ≤ 6.2 ∧
    (6.2 : ℚ) < 7 ∧ (afterWalls cvQ cornerWorld).ball.speed * 1.4 = 7 ∧
    clamp (hitPos (afterWalls cvQ cornerWorld).paddle (afterWalls cvQ cornerWorld).ball *
        (afterWalls cvQ cornerWorld).ball.speed * 1.1)
      (-((afterWalls cvQ cornerWorld).ball.speed * 1.4))
      ((afterWalls cvQ cornerWorld).ball.speed * 1.4) =
      hitPos (afterWalls cvQ cornerWorld).paddle (afterWalls cvQ cornerWorld).ball *
        (afterWalls cvQ cornerWorld).ball.speed * 1.1 ∧
    ∃ w, update cvQ cornerWorld = some w ∧
      w.ball.vx = hitPos (afterWalls cvQ cornerWorld).paddle (afterWalls cvQ cornerWorld).ball *
        (afterWalls cvQ cornerWorld).ball.speed * 1.1 :=
  ⟨by decide, rfl, by decide!, by decide!,
    paddle_hit_vx_is_spin cvQ cornerWorld (by decide) rfl (by decide!) (by decide!)⟩

/-- C18: in every reachable world the score is ten times the number of dead
bricks of the grid; so it is a non-negative multiple of 10, at most 560. -/
theorem score_counts_dead_bricks (m : MathEnv α) (canvas : Canvas α) (s : World α)
    (hr : Reachable m canvas s) :
    s.state.score = 10 * (deadBricks s.grid : Int) ∧
    0 ≤ s.state.score ∧ (10 : Int) ∣ s.state.score ∧ s.state.score ≤ 560 := by
  obtain ⟨hex, _, _, hsc, _⟩ := reachable_tally m canvas s hr
  have hle := deadBricks_le s.grid hex
  refine ⟨hsc, ?_, ?_, ?_⟩
  · rw [hsc]; omega
  · rw [hsc]; exact Dvd.intro _ rfl
  · rw [hsc]; omega

/-- C18, at the lost game `lostWorld`: 30 points, three dead bricks. -/
theorem score_counts_dead_bricks_witness :
    Reachable mathQ cvQ lostWorld ∧
    lostWorld.state.score = 10 * (deadBricks lostWorld.grid : Int) ∧
    0 ≤ lostWorld.state.score ∧ (10 : Int) ∣ lostWorld.state.score ∧
    lostWorld.state.score ≤ 560 :=
  ⟨lostWorld_reachable, score_counts_dead_bricks mathQ cvQ lostWorld lostWorld_reachable⟩

/-- C19: in every reachable world `remainingBricks()` returns a count `k`
that is 0 exactly when no brick is alive; the game is over if and only if
`lives = 0` or `k = 0`, and these never hold together; so when the game is
over the message of `draw` is "You Win!" exactly when the bricks are gone and
"Game Over" exactly when the lives are. -/
theorem gameOver_iff_lost_or_won (m : MathEnv α) (canvas : Canvas α) (s : World α)
    (hr : Reachable m canvas s) :
    ∃ k, remainingBricks s.grid = some k ∧
      (k = 0 ↔ ∀ r, r < bricks.rows → ∀ c, c < bricks.cols → aliveAt s.grid r c = false) ∧
      (s.state.gameOver = true ↔ (s.state.lives = 0 ∨ k = 0)) ∧
      ¬ (s.state.lives = 0 ∧ k = 0) ∧
      (s.state.gameOver = true →
        (gameOverMsg s.grid = some "You Win!" ∧ k = 0 ∧ s.state.lives ≠ 0) ∨
        (gameOverMsg s.grid = some "Game Over" ∧ s.state.lives = 0 ∧ k ≠ 0)) := by
  obtain ⟨_, _, _, _, k, hk, hiff, hboth⟩ := reachable_tally m canvas s hr
  refine ⟨k, hk, remainingBricks_zero_iff s.grid k hk, hiff, hboth, fun hg => ?_⟩
  by_cases hk0 : k = 0
  · left
    refine ⟨?_, hk0, fun h0 => hboth ⟨h0, hk0⟩⟩
    simp only [gameOverMsg, hk, hk0, if_true]
  · right
    refine ⟨?_, ?_, hk0⟩
    · simp only [gameOverMsg, hk, hk0, if_false]
    · rcases hiff.mp hg with h0 | h0
      · exact h0
      · exact absurd h0 hk0

/-- C19, at the lost game `lostWorld`. -/
theorem gameOver_iff_lost_or_won_witness :
    Reachable mathQ cvQ lostWorld ∧
    ∃ k, remainingBricks lostWorld.grid = some k ∧
      (k = 0 ↔ ∀ r, r < bricks.rows → ∀ c, c < bricks.cols →
        aliveAt lostWorld.grid r c = false) ∧
      (lostWorld.state.gameOver = true ↔ (lostWorld.state.lives = 0 ∨ k = 0)) ∧
      ¬ (lostWorld.state.lives = 0 ∧ k = 0) ∧
      (lostWorld.state.gameOver = true →
        (gameOverMsg lostWorld.grid = some "You Win!" ∧ k = 0 ∧ lostWorld.state.lives ≠ 0) ∨
        (gameOverMsg lostWorld.grid = some "Game Over" ∧ lostWorld.state.lives = 0 ∧ k ≠ 0)) :=
  ⟨lostWorld_reachable, gameOver_iff_lost_or_won mathQ cvQ lostWorld lostWorld_reachable⟩

/-- The messages of `draw` evaluated: "Game Over" on the lost game, "You Win!"
on the grid `update` leaves after the last brick. -/
theorem gameOverMsg_examples :
    gameOverMsg lostWorld.grid = some "Game Over" ∧
    gameOverMsg lastBrickDone.grid = some "You Win!" := by
  decide

/-- C20: on an arena at least 110 wide and 45 high, from every world, a call
of `update` that returns leaves `ball.r ≤ ball.x ≤ canvas.width - ball.r` and
`ball.y ≥ ball.r` (and `update` does return on a well-formed grid). -/
theorem ball_stays_in_arena (canvas : Canvas α) (s : World α)
    (hW : 110 ≤ canvas.width) (hH : 45 ≤ canvas.height) :
    (∀ w, update canvas s = some w →
      w.ball.r ≤ w.ball.x ∧ w.ball.x ≤ canvas.width - w.ball.r ∧ w.ball.r ≤ w.ball.y) ∧
    (GridOK s.grid → ∃ w, update canvas s = some w ∧
      w.ball.r ≤ w.ball.x ∧ w.ball.x ≤ canvas.width - w.ball.r ∧ w.ball.r ≤ w.ball.y) := by
  have hwall : BallInArena canvas (afterWalls canvas s).ball :=
    wallCollisions_inArena canvas (ballMove s.ball) (by linarith)
  have hpad := paddleMove_inArena canvas s hW
  have hdock : ∀ t : World α, t.paddle = (paddleMove canvas s).paddle →
      BallInArena canvas (resetBallOnPaddle canvas t).ball := by
    intro t ht
    obtain ⟨h1, h2⟩ := hpad
    have e1 : (paddleMove canvas s).paddle.w = 110 := rfl
    rw [e1] at h2
    have ex : (resetBallOnPaddle canvas t).ball.x = (paddleMove canvas s).paddle.x + 110 / 2 := by
      show t.paddle.x + 110 / 2 = _
      rw [ht]
    have ey : (resetBallOnPaddle canvas t).ball.y = canvas.height - 30 - 7 - 1 := rfl
    have er : (resetBallOnPaddle canvas t).ball.r = 7 := rfl
    unfold BallInArena
    rw [ex, ey, er]
    refine ⟨?_, ?_, ?_⟩ <;> linarith
  have hscan : BallInArena canvas (beforeScan canvas s).ball := by
    by_cases hp : PaddleHit canvas s
    · rw [paddleCollision_hit canvas s hp]
      obtain ⟨h1, h2, _⟩ := hwall
      refine ⟨h1, h2, ?_⟩
      show (7 : α) ≤ canvas.height - 30 - 7 - 1
      linarith
    · rw [paddleCollision_none canvas s hp]
      exact hwall
  have hall : ∀ w, update canvas s = some w → BallInArena canvas w.ball := by
    intro w h
    rcases update_some canvas s w h with ⟨_, hw⟩ | ⟨_, _, hw⟩ | ⟨_, hw | ⟨r, c, hres⟩⟩
    · rw [hw]; exact hdock _ rfl
    · rcases loseLife_cases canvas (afterWalls canvas s) with ⟨_, e⟩ | ⟨_, e⟩
      · rw [hw, e]; exact hwall
      · rw [hw, e]; exact hdock _ rfl
    · rw [hw]; exact hscan
    · rw [hres.2.2.2.1]
      exact hscan
  refine ⟨hall, fun hg => ?_⟩
  obtain ⟨w, hw⟩ := update_total canvas s hg
  exact ⟨w, hw, hall w hw⟩

/-- C20, on the 480 x 640 canvas and a ball that crosses the left wall. -/
theorem ball_stays_in_arena_witness :
    (110 : ℚ) ≤ cvQ.width ∧ (45 : ℚ) ≤ cvQ.height ∧
    (∀ w, update cvQ leftWallWorld = some w →
      w.ball.r ≤ w.ball.x ∧ w.ball.x ≤ cvQ.width - w.ball.r ∧ w.ball.r ≤ w.ball.y) ∧
    (GridOK leftWallWorld.grid → ∃ w, update cvQ leftWallWorld = some w ∧
      w.ball.r ≤ w.ball.x ∧ w.ball.x ≤ cvQ.width - w.ball.r ∧ w.ball.r ≤ w.ball.y) :=
  ⟨by decide!, by decide!, ball_stays_in_arena cvQ leftWallWorld (by decide!) (by decide!)⟩

end Properties

end BlockBreaker
